import Mathlib

/-!
Verification of the structured question-sequencing engine
(`question_flow_engine.py`, with the answer-export path of
`chatbot_engine.py` and `mongodb_service.py`).

The Python data structures are shallowly embedded as follows:
* Python dicts become association lists `List (String × α)` with unique keys;
  `dict_insert` models `d[k] = v` (update in place, else append, preserving
  insertion order) and `dlookup` models `d.get(k)`.
* Python sets of labels become `Finset String`.
* The LangGraph message list becomes `List Msg`.
* The Ollama/OpenAI embedding side store (`question_embeddings`,
  `answer_embeddings_store`) is external I/O whose content never feeds back
  into the sequencing control flow, so it is not part of the state model.
* `sorted(xs, key=f)` is a stable sort by `f`; it is embedded with
  `List.insertionSort`, the standard stable sort (all stable sorts with
  respect to the same total preorder agree extensionally).
-/

/-- Association-list lookup, modelling Python `d.get(k)` for a dict `d`
(keys are unique, so first match equals the dict entry). -/
def dlookup {α : Type} : List (String × α) → String → Option α
  | [], _ => none
  | p :: m, k => if p.1 = k then some p.2 else dlookup m k

/-- Python `d.get(k, default)`. -/
def dget {α : Type} (m : List (String × α)) (k : String) (d : α) : α :=
  (dlookup m k).getD d

/-- Python `d[k] = v`: replace the entry in place if the key is present,
otherwise append (dicts preserve insertion order). -/
def dict_insert {α : Type} (m : List (String × α)) (k : String) (v : α) : List (String × α) :=
  if m.any (fun p => p.1 == k) then m.map (fun p => if p.1 = k then (k, v) else p)
  else m ++ [(k, v)]

/-- Python `{**base, **overlay}`: entries of `overlay` overwrite `base`. -/
def dict_union (base overlay : List (String × String)) : List (String × String) :=
  overlay.foldl (fun m p => dict_insert m p.1 p.2) base

/-- Python `needle in haystack`, the starts-with part: does `hay` begin with `needle`. -/
def seq_startswith : List Char → List Char → Bool
  | _, [] => true
  | [], _ :: _ => false
  | a :: s, b :: t => a == b && seq_startswith s t

/-- Python substring test `needle in hay` over character lists. -/
def seq_contains_sub : List Char → List Char → Bool
  | [], needle => needle.isEmpty
  | h :: t, needle => seq_startswith (h :: t) needle || seq_contains_sub t needle

/-- Python `needle in hay` for strings (substring containment). -/
def py_in_str (needle hay : String) : Bool :=
  seq_contains_sub hay.toList needle.toList

/-- Python slicing `s[:n]`. -/
def py_take (n : Nat) (s : String) : String :=
  String.mk (s.toList.take n)

/-- Python `s.strip()` over a character list: remove leading and trailing
whitespace. -/
def strip_list (l : List Char) : List Char :=
  ((l.dropWhile Char.isWhitespace).reverse.dropWhile Char.isWhitespace).reverse

/-- Python `s.strip()`. -/
def py_strip (s : String) : String :=
  String.mk (strip_list s.toList)

/-- Python `s.lower()`. -/
def py_lower (s : String) : String :=
  String.mk (s.toList.map Char.toLower)

/-- Python `s.isalnum()`: nonempty and all characters alphanumeric. -/
def py_isalnum (s : String) : Bool :=
  !s.toList.isEmpty && s.toList.all Char.isAlphanum

/-- Helper for Python `s.split(sep)` with a one-character separator:
split the character list at every underscore. -/
def split_uscore : List Char → List Char → List (List Char)
  | [], cur => [cur.reverse]
  | ch :: rest, cur =>
    if ch = '_' then cur.reverse :: split_uscore rest []
    else split_uscore rest (ch :: cur)

/-- Digits of a decimal numeral, or `none` if empty or not all digits. -/
def digits_to_nat (ds : List Char) : Option Nat :=
  if ds.isEmpty then none
  else if ds.all Char.isDigit then
    some (ds.foldl (fun acc ch => 10 * acc + (ch.toNat - 48)) 0)
  else none

/-- Python `int(s)`: optional surrounding whitespace, optional sign, digits;
`none` models the `ValueError` branch. -/
def py_int (s : List Char) : Option Int :=
  let t := ((s.dropWhile Char.isWhitespace).reverse.dropWhile Char.isWhitespace).reverse
  match t with
  | '-' :: ds => (digits_to_nat ds).map (fun n => -(n : Int))
  | '+' :: ds => (digits_to_nat ds).map (fun n => (n : Int))
  | ds => (digits_to_nat ds).map (fun n => (n : Int))

/-- One flattened question of the engine's `self.questions` map
(the dict values built by `_flatten_questions`). -/
structure QuestionDef where
  label : String
  question : String
  category : String
  category_title : String
  subcategory : String
  subcategory_title : String
  old_id : Option String
deriving DecidableEq, Repr

/-- The engine's catalog state after `__init__`:
`self.questions`, `self.dependencies`, `self.priorities`, `self.flow_order`. -/
structure Catalog where
  questions : List (String × QuestionDef)
  dependencies : List (String × List String)
  priorities : List (String × Int)
  flow_order : List String
deriving DecidableEq, Repr

/-- The question dict produced inside `_get_available_questions`
(`{"id": label, "question": ..., "category": ..., "subcategory": ..., "label": label}`). -/
structure AvailableQ where
  id : String
  question : String
  category : String
  subcategory : String
  label : String
deriving DecidableEq, Repr

/-- `MAX_QUESTIONS = 2`, the testing cap in `_get_available_questions`. -/
def MAX_QUESTIONS : Nat := 2

/-- The dict built for an eligible question inside `_get_available_questions`. -/
def to_avail (question_label : String) (question_data : QuestionDef) : AvailableQ :=
  { id := question_label
    question := question_data.question
    category := question_data.category
    subcategory := question_data.subcategory
    label := question_label }

/-- The eligibility test of the loop body of `_get_available_questions`:
not yet answered, and every dependency answered. -/
def eligible (c : Catalog) (answered : Finset String) (p : String × QuestionDef) : Bool :=
  decide (p.1 ∉ answered) && (dget c.dependencies p.1 []).all (fun dep => decide (dep ∈ answered))

/-- The `for question_label, question_data in self.questions.items()` loop of
`_get_available_questions`: skip answered labels, keep questions whose
dependencies are all answered, and stop once `MAX_QUESTIONS` are collected. -/
def availableAux (c : Catalog) (answered : Finset String) :
    List (String × QuestionDef) → List AvailableQ → List AvailableQ
  | [], acc => acc
  | (question_label, question_data) :: rest, acc =>
    if question_label ∈ answered then availableAux c answered rest acc
    else if (dget c.dependencies question_label []).all (fun dep => decide (dep ∈ answered)) then
      let acc2 := acc ++ [to_avail question_label question_data]
      if MAX_QUESTIONS ≤ acc2.length then acc2
      else availableAux c answered rest acc2
    else availableAux c answered rest acc

/-- `_get_available_questions(answered_questions)`: returns `[]` outright once
`MAX_QUESTIONS` labels are answered, otherwise collects eligible questions. -/
def get_available_questions (c : Catalog) (answered : Finset String) : List AvailableQ :=
  if MAX_QUESTIONS ≤ answered.card then []
  else availableAux c answered c.questions []

/-- `_get_available_questions` when handed a list: the code converts it to a
set first (`answered_questions = set(answered_questions)`). -/
def get_available_questions_from_list (c : Catalog) (answered : List String) : List AvailableQ :=
  get_available_questions c answered.toFinset

/-- `category_order_map.get(category, 999)` where
`category_order_map = {cat: idx for idx, cat in enumerate(self.flow_order)}`
(a repeated category keeps its last index, as in a dict comprehension). -/
def category_order (c : Catalog) (category : String) : Int :=
  (c.flow_order.enum.foldl
    (fun acc p => if p.2 = category then some (Int.ofNat p.1) else acc) none).getD 999

/-- The `q_num` component of `sort_key`: the integer parsed from the label
after the first underscore, `999` when there is no underscore or parsing fails. -/
def seq_num (question_label : String) : Int :=
  if question_label.toList.contains '_' then
    (py_int ((split_uscore question_label.toList []).getD 1 [])).getD 999
  else 999

/-- `sort_key(q)` of `_sort_questions_by_order`:
`(category_order, priority, q_num)`. -/
def sort_key (c : Catalog) (q : AvailableQ) : Int × Int × Int :=
  (category_order c q.category, dget c.priorities q.id 999, seq_num q.id)

/-- Lexicographic order on the sort-key triples: Python tuple comparison. -/
def lex_le (x y : Int × Int × Int) : Prop :=
  x.1 < y.1 ∨ (x.1 = y.1 ∧ (x.2.1 < y.2.1 ∨ (x.2.1 = y.2.1 ∧ x.2.2 ≤ y.2.2)))

instance lex_le_decidable : ∀ x y, Decidable (lex_le x y) := by
  intro x y
  unfold lex_le
  infer_instance

/-- `_sort_questions_by_order`: Python `sorted(questions, key=sort_key)` is a
stable sort by the key; embedded as the standard stable insertion sort. -/
def sort_questions_by_order (c : Catalog) (questions : List AvailableQ) : List AvailableQ :=
  questions.insertionSort (fun a b => lex_le (sort_key c a) (sort_key c b))

/-- `_judge_next_question(available_questions, conversation_history,
current_answers)`: despite its signature it reads only the candidate list —
it returns the id of the first question in sorted order. -/
def judge_next_question (c : Catalog) (available_questions : List AvailableQ)
    (conversation_history : List (String × String))
    (current_answers : List (String × String)) : Option String :=
  if available_questions.isEmpty then none
  else
    match sort_questions_by_order c available_questions with
    | [] => none
    | q :: _ => some q.id

/-- A LangChain message: `HumanMessage` or `AIMessage` with its content. -/
inductive Msg where
  | human (content : String)
  | ai (content : String)
deriving DecidableEq, Repr

/-- The LangGraph `QuestionFlowState` (the embedding store is external I/O
and never feeds back into sequencing, so it is not carried here). -/
structure FlowState where
  messages : List Msg
  answered_questions : Finset String
  current_question_id : Option String
  answers : List (String × String)
  asked_questions : Finset String
  flow_complete : Bool
deriving DecidableEq

/-- The label set the selector works from: `answered_questions` merged with
the keys of the `answers` dict (`_select_question_node` lines 437-442). -/
def merged_answered (state : FlowState) : Finset String :=
  state.answered_questions ∪ (state.answers.map Prod.fst).toFinset

/-- The inner question-text match of `_process_answer_node`:
`q_data["question"] == question_text or q_data["question"][:50] in question_text`. -/
def question_matches (question_text msg_text : String) : Bool :=
  question_text == msg_text || py_in_str (py_take 50 question_text) msg_text

/-- First question of `self.questions` whose text matches the message text. -/
def find_matching_question (c : Catalog) (msg_text : String) : Option String :=
  (c.questions.find? (fun p => question_matches p.2.question msg_text)).map Prod.fst

/-- Scan the (already reversed) message list for the last `AIMessage` whose
text matches a catalog question (`_process_answer_node` lines 550-562). -/
def find_question_in_reversed (c : Catalog) : List Msg → Option String
  | [] => none
  | Msg.ai text :: rest =>
    match find_matching_question c text with
    | some qid => some qid
    | none => find_question_in_reversed c rest
  | Msg.human _ :: rest => find_question_in_reversed c rest

/-- The last `HumanMessage` content in the message list. -/
def find_last_human (messages : List Msg) : Option String :=
  messages.reverse.findSome? (fun m =>
    match m with
    | Msg.human t => some t
    | Msg.ai _ => none)

/-- The answer-recording tail of `_process_answer_node`: store the answer
under the question label and mark the label answered. -/
def record_answer (state : FlowState) (question_id answer : String) : FlowState :=
  { state with
    answers := dict_insert state.answers question_id answer
    answered_questions := insert question_id state.answered_questions }

/-- `_process_answer_node`: find the last user message, resolve which question
it answers (the pending `current_question_id`, or — when that is `None` — by
matching the last asked question text, which also sets
`current_question_id`), then record the answer and mark the label answered. -/
def process_answer_node (c : Catalog) (state : FlowState) : FlowState :=
  if state.messages.isEmpty then state
  else
    match find_last_human state.messages with
    | none => state
    | some answer =>
      match state.current_question_id with
      | some question_id => record_answer state question_id answer
      | none =>
        match find_question_in_reversed c state.messages.reverse with
        | some question_id =>
          record_answer { state with current_question_id := some question_id }
            question_id answer
        | none => state

/-- The fallback tail of `_select_question_node` (lines 487-494): take the
first of the sorted candidates, or mark the flow complete if none remain. -/
def select_fallback (c : Catalog) (state : FlowState) (available : List AvailableQ) : FlowState :=
  match sort_questions_by_order c available with
  | q :: _ => { state with current_question_id := some q.id }
  | [] => { state with current_question_id := none, flow_complete := true }

/-- `_select_question_node`: merge answers keys into the answered set, get the
available questions, pick one with the judge, apply the defensive backstop
(discard an already-answered selection, filter it out and re-select), and
fall back to the first sorted candidate when the selection is not available. -/
def select_question_node (c : Catalog) (state : FlowState) : FlowState :=
  let answered := state.answered_questions ∪ (state.answers.map Prod.fst).toFinset
  let state1 := { state with answered_questions := answered }
  let available := get_available_questions c answered
  if available.isEmpty then
    { state1 with flow_complete := true, current_question_id := none }
  else
    let conversation_history := state1.answers
    let selected0 := judge_next_question c available conversation_history state1.answers
    let sa : Option String × List AvailableQ :=
      match selected0 with
      | some sid =>
        if sid ∈ answered then
          let available2 := available.filter (fun q => q.id ≠ sid)
          if available2.isEmpty then (none, available2)
          else
            match sort_questions_by_order c available2 with
            | q :: _ => (some q.id, available2)
            | [] => (none, available2)
        else (some sid, available)
      | none => (none, available)
    match sa.1 with
    | some sid =>
      if sid ∈ sa.2.map (fun q => q.id) then
        { state1 with current_question_id := some sid }
      else select_fallback c state1 sa.2
    | none => select_fallback c state1 sa.2

/-- `_ask_question_node`: emit the pending question text as an `AIMessage`
and mark the label asked. -/
def ask_question_node (c : Catalog) (state : FlowState) : FlowState :=
  match state.current_question_id with
  | some question_id =>
    match dlookup c.questions question_id with
    | some question_data =>
      { state with
        messages := state.messages ++ [Msg.ai question_data.question]
        asked_questions := insert question_id state.asked_questions }
    | none => state
  | none => state

/-- `_check_completion_node`: `flow_complete` is set to whether no question
is available for the current answered set. -/
def check_completion_node (c : Catalog) (state : FlowState) : FlowState :=
  { state with
    flow_complete := (get_available_questions c state.answered_questions).isEmpty }

/-- One pass of the compiled LangGraph workflow:
`process_answer -> select_question -> ask_question -> check_completion`
(both conditional edges of `check_completion` lead to `END`). -/
def workflow_step (c : Catalog) (state : FlowState) : FlowState :=
  check_completion_node c (ask_question_node c (select_question_node c (process_answer_node c state)))

/-- The graph invocation on a flow state with the user message appended as a
`HumanMessage`: the workflow path of `process_message`, NOT a whole
controller call — `process_message`'s first-interaction branch (lines
655-713) bypasses the graph entirely and is modelled by `process_message`
below. -/
def run_workflow (c : Catalog) (state : FlowState) (user_message : String) : FlowState :=
  workflow_step c { state with messages := state.messages ++ [Msg.human user_message] }

/-- The resumption merge of `process_message` (lines 759-811): when LangGraph
memory holds an `existing` state for the thread, the freshly prepared
`initial` state is merged with it — answered sets are unioned, answers are
merged with the in-memory (`initial`) write winning, every merged answer key
is added to the answered set, the in-progress `current_question_id` is kept
unless it is `None`, and the message history is taken from memory plus the
new user message. Empty collections are skipped (Python truthiness), which
coincides with merging with the empty collection. -/
def merge_memory_state (initial existing : FlowState) (user_message : String) : FlowState :=
  let answered1 :=
    if existing.answered_questions = ∅ then initial.answered_questions
    else initial.answered_questions ∪ existing.answered_questions
  let aa : List (String × String) × Finset String :=
    if existing.answers.isEmpty then (initial.answers, answered1)
    else
      let merged_answers := dict_union existing.answers initial.answers
      (merged_answers, answered1 ∪ (merged_answers.map Prod.fst).toFinset)
  let current :=
    match initial.current_question_id, existing.current_question_id with
    | none, some q => some q
    | cur, _ => cur
  let messages :=
    if existing.messages.isEmpty then [Msg.human user_message]
    else existing.messages ++ [Msg.human user_message]
  { messages := messages
    answered_questions := aa.2
    current_question_id := current
    answers := aa.1
    asked_questions := initial.asked_questions
    flow_complete := initial.flow_complete }

/-- `msg.content` of a LangChain message. -/
def msg_content : Msg → String
  | Msg.human t => t
  | Msg.ai t => t

/-- The `session_state` dict that `process_message` receives and returns:
the answered label set (stored as a list, set-converted on entry), the
answers dict, the pending question, the asked set, and the message history
stored as plain content strings (line 841). -/
structure SessionState where
  answered_questions : Finset String
  answers : List (String × String)
  current_question_id : Option String
  asked_questions : Finset String
  messages : List String
deriving DecidableEq

/-- The caller-visible result of one `process_message` controller call:
the reported completion flag, the pending question, and the updated
session state. -/
structure ProcessResult where
  flow_complete : Bool
  current_question_id : Option String
  session : SessionState
deriving DecidableEq

/-- Lines 722-737 of `process_message`: before the graph runs, the pending
question (if any) is recorded as answered with the incoming message. -/
def mark_current_answered (session : SessionState) (user_message : String) : SessionState :=
  match session.current_question_id with
  | some q =>
    { session with
      answered_questions := insert q session.answered_questions
      answers := dict_insert session.answers q user_message }
  | none => session

/-- The graph input built by `process_message` (lines 742-751 and 807-810).
The graph is compiled WITHOUT the checkpointer (`workflow.compile()` at
line 428 never receives `self.memory`), so `workflow.get_state` raises,
the except branch always runs, the memory merge never executes and the
message list is always reset to the single incoming `HumanMessage`. -/
def initial_flow_state (session : SessionState) (user_message : String) : FlowState :=
  { messages := [Msg.human user_message]
    answered_questions := (mark_current_answered session user_message).answered_questions
    current_question_id := session.current_question_id
    answers := (mark_current_answered session user_message).answers
    asked_questions := ∅
    flow_complete := false }

/-- `process_message` (lines 624-877), one controller call. The
first-interaction branch (no answered label and no pending question, lines
655-713) asks the first sorted available question directly — or answers
with a fallback greeting when none is available — and returns
`flow_complete = False` WITHOUT invoking the graph. Otherwise the pending
question is marked answered, the graph runs on `initial_flow_state`, and
the final graph state is copied back into the session (lines 817-856),
including the response-matching fallback for a missing
`current_question_id`. -/
def process_message (c : Catalog) (session : SessionState) (user_message : String) :
    ProcessResult :=
  if session.answered_questions.card = 0 ∧ session.current_question_id = none then
    if (get_available_questions c ∅).isEmpty then
      { flow_complete := false
        current_question_id := none
        session := session }
    else
      match sort_questions_by_order c (get_available_questions c ∅) with
      | [] =>
        { flow_complete := false
          current_question_id := none
          session := session }
      | first_question :: _ =>
        { flow_complete := false
          current_question_id := some first_question.id
          session := { session with
            messages := session.messages ++ [user_message, first_question.question]
            current_question_id := some first_question.id
            asked_questions := insert first_question.id session.asked_questions } }
  else
    let final_state := workflow_step c (initial_flow_state session user_message)
    let response_text : String :=
      match final_state.messages.getLast? with
      | some (Msg.ai t) => t
      | _ => ""
    let current_q2 : Option String :=
      match final_state.current_question_id with
      | some q => some q
      | none => if response_text = "" then none else find_matching_question c response_text
    { flow_complete := final_state.flow_complete
      current_question_id := current_q2
      session := { session with
        answered_questions := final_state.answered_questions
            ∪ (final_state.answers.map Prod.fst).toFinset
        answers := final_state.answers
        current_question_id := current_q2
        messages := final_state.messages.map msg_content } }

/-- The session evolution under repeated controller calls. -/
def session_step (c : Catalog) (session : SessionState) (user_message : String) : SessionState :=
  (process_message c session user_message).session

/-- The answered labels of a session together with its answer keys — the
set `_select_question_node` will merge on the next graph run. -/
def session_merged (session : SessionState) : Finset String :=
  session.answered_questions ∪ (session.answers.map Prod.fst).toFinset

/-- One subcategory object of the new `questions.json` structure:
`{"title": ..., "questions": {label: text}}`. -/
structure SubcatData where
  title : String
  questions : List (String × String)
deriving DecidableEq, Repr

/-- One category object of the new structure; `subcategories` is `none`
when the JSON object has no `"subcategories"` key. -/
structure CategoryData where
  title : String
  subcategories : Option (List (String × SubcatData))
deriving DecidableEq, Repr

/-- One entry of the old flat `questions` array. `priority` carries the
value of `q.get("priority", 1)` (default already applied). -/
structure OldQuestion where
  id : String
  category : String
  question : String
  dependencies : List String
  priority : Int
deriving DecidableEq, Repr

/-- The parsed `questions.json` document. A JSON key that is absent is
modelled like an empty collection: the loader only ever tests truthiness,
which agrees on both. -/
structure QuestionsDoc where
  categories : List (String × CategoryData)
  questions : List OldQuestion
  question_dependencies : List (String × List String)
  question_priorities : List (String × Int)
  flow_order : List String
deriving DecidableEq, Repr

/-- The hardcoded `category_to_label` map of the loader. -/
def category_to_label : String → Option String
  | "introduction" => some "A"
  | "demographics" => some "B"
  | "chief_complaint" => some "C"
  | "history_of_present_illness" => some "D"
  | "past_medical_history" => some "E"
  | "medications" => some "F"
  | "allergies" => some "G"
  | "family_history" => some "H"
  | "social_history" => some "I"
  | "review_of_systems" => some "J"
  | "vital_signs" => some "K"
  | "assessment" => some "L"
  | _ => none

/-- `has_nested_structure` of `_flatten_questions`: some category value
carries a `"subcategories"` key (the outer nonemptiness test is implied). -/
def has_nested_structure (d : QuestionsDoc) : Bool :=
  d.categories.any (fun p => p.2.subcategories.isSome)

/-- The new-structure branch of `_flatten_questions`:
categories -> subcategories -> questions, flattened into the label-keyed map. -/
def flatten_new (d : QuestionsDoc) : List (String × QuestionDef) :=
  d.categories.foldl (fun m cp =>
    (cp.2.subcategories.getD []).foldl (fun m sp =>
      sp.2.questions.foldl (fun m qp =>
        dict_insert m qp.1
          { label := qp.1
            question := qp.2
            category := cp.1
            category_title := cp.2.title
            subcategory := sp.1
            subcategory_title := sp.2.title
            old_id := none }) m) m) []

/-- Python `s.replace("_", " ")`. -/
def py_replace_uscore (s : String) : String :=
  String.mk (s.toList.map (fun ch => if ch = '_' then ' ' else ch))

/-- Helper for Python `s.title()`: uppercase a letter that follows a
non-alphabetic character, lowercase the other letters. -/
def title_aux : Bool → List Char → List Char
  | _, [] => []
  | prev_alpha, ch :: rest =>
    (if prev_alpha then ch.toLower else ch.toUpper) :: title_aux ch.isAlpha rest

/-- Python `s.title()`. -/
def py_title (s : String) : String :=
  String.mk (title_aux false s.toList)

/-- The subcategory bump of the old-structure branch: increment the second
letter, wrapping past `Z` to `A`. -/
def bump_subcat (subcat_label : String) : String :=
  let c0 := subcat_label.toList.getD 0 ' '
  let c1 := subcat_label.toList.getD 1 ' '
  let n := c1.toNat + 1
  String.mk [c0, Char.ofNat (if Char.toNat 'Z' < n then Char.toNat 'A' else n)]

/-- One iteration of the old-structure branch of `_flatten_questions`:
thread the per-category `(count, subcategory)` state and extend the map. -/
def flatten_old_step (acc : List (String × (Nat × String)) × List (String × QuestionDef))
    (q : OldQuestion) : List (String × (Nat × String)) × List (String × QuestionDef) :=
  let cat_label := (category_to_label q.category).getD "Z"
  let entry := dget acc.1 q.category (0, "AA")
  let subcat_label := entry.2
  let cnt := entry.1 + 1
  let question_label := subcat_label ++ "_" ++ toString cnt
  let next_subcat := if cnt % 5 = 0 then bump_subcat subcat_label else subcat_label
  ( dict_insert acc.1 q.category (cnt, next_subcat)
  , dict_insert acc.2 question_label
      { label := question_label
        question := q.question
        category := cat_label
        category_title := py_title (py_replace_uscore q.category)
        subcategory := subcat_label
        subcategory_title := py_title (py_replace_uscore q.category)
        old_id := some q.id } )

/-- `_flatten_questions`: new structure first, else the old flat array,
else the empty map (the code only prints an error in that case). -/
def flatten_questions (d : QuestionsDoc) : List (String × QuestionDef) :=
  if has_nested_structure d then flatten_new d
  else if !d.questions.isEmpty then (d.questions.foldl flatten_old_step ([], [])).2
  else []

/-- The old-structure dependency/priority rebuild of `__init__`
(lines 61-84): map old ids to new labels via `old_id`. -/
def build_old_deps (d : QuestionsDoc) (questions_map : List (String × QuestionDef)) :
    List (String × List String) × List (String × Int) :=
  d.questions.foldl (fun acc q =>
    match (questions_map.find? (fun p => p.2.old_id = some q.id)).map Prod.fst with
    | some new_label =>
      let new_deps := q.dependencies.foldl (fun ds old_dep =>
        match (questions_map.find? (fun p => p.2.old_id = some old_dep)).map Prod.fst with
        | some l => ds ++ [l]
        | none => ds) []
      (dict_insert acc.1 new_label new_deps, dict_insert acc.2 new_label q.priority)
    | none => acc) ([], [])

/-- `QuestionFlowEngine.__init__` catalog construction (lines 47-108):
flatten the questions, then take explicit dependencies/priorities/flow order
when `question_dependencies` is truthy, else rebuild them from the old
structure. No validation (in particular no dependency-cycle check) happens. -/
def init_catalog (d : QuestionsDoc) : Catalog :=
  let questions := flatten_questions d
  if !d.question_dependencies.isEmpty then
    { questions := questions
      dependencies := d.question_dependencies
      priorities := d.question_priorities
      flow_order := d.flow_order }
  else
    let dp := build_old_deps d questions
    { questions := questions
      dependencies := dp.1
      priorities := dp.2
      flow_order := d.flow_order.foldl (fun fo cat =>
        match category_to_label cat with
        | some l => fo ++ [l]
        | none => fo) [] }

/-- Catalog load: `_load_questions` raises `FileNotFoundError` when the file
is missing (`none`); a parsed document always constructs a catalog —
`_flatten_questions` and `__init__` have no failing path for parsed data. -/
def load_engine : Option QuestionsDoc → Except String Catalog
  | none => Except.error "FileNotFoundError: Questions file not found"
  | some d => Except.ok (init_catalog d)

/-- The placeholder blacklist of `save_user_responses`. -/
def placeholder_indicators : List String :=
  ["placeholder", "n/a", "not applicable", "none", "null", "undefined"]

/-- `any(placeholder in answer.strip().lower() for placeholder in ...)`. -/
def is_placeholder (answer : String) : Bool :=
  placeholder_indicators.any (fun p => py_in_str p (py_lower (py_strip answer)))

/-- One iteration of the filtering loop of `save_user_responses`
(`mongodb_service.py` lines 178-205): skip empty question text, skip
label-looking short questions, skip empty/whitespace answers, skip
placeholder answers, else record the stripped pair. -/
def valid_responses_step (acc : List (String × String)) (qp : String × String) :
    List (String × String) :=
  if qp.1 = "" then acc
  else if qp.1.length < 20 ∧ (qp.1.toList.contains '_' = true ∨ py_isalnum qp.1 = true) then acc
  else if py_strip qp.2 = "" then acc
  else if is_placeholder qp.2 then acc
  else dict_insert acc (py_strip qp.1) (py_strip qp.2)

/-- The `valid_responses` filter of `save_user_responses`. -/
def valid_responses (responses : List (String × String)) : List (String × String) :=
  responses.foldl valid_responses_step []

/-- `save_user_responses(user_email, session_id, responses)` modelled over the
user's stored `consultation_results` map: returns the call's success flag and
the resulting stored map. MongoDB unavailable returns `False`; empty input or
fully filtered input returns `True` without writing; otherwise the valid
responses are merged over the existing results (`$set` per key). -/
def save_user_responses (mongo_available : Bool) (existing_results : List (String × String))
    (responses : List (String × String)) : Bool × List (String × String) :=
  if !mongo_available then (false, existing_results)
  else if responses.isEmpty then (true, existing_results)
  else
    let valid := valid_responses responses
    if valid.isEmpty then (true, existing_results)
    else (true, dict_union existing_results valid)

/-- The current question/answer pair captured by `chatbot_engine.py`. -/
structure QAPair where
  question : String
  answer : String
deriving DecidableEq, Repr

/-- The fallback of the export builder: resolve a label through the engine's
question map (`question_data.get("question", "").strip()`). -/
def fallback_question (engine_questions : List (String × QuestionDef)) (label : String) :
    Option String :=
  (dlookup engine_questions label).map (fun qd => py_strip qd.question)

/-- STEP 1 of the export builder: add the current Q/A pair when both parts
are nonempty after stripping and the question text is at least 20
characters. -/
def build_step1 (current_qa_pair : Option QAPair) : List (String × String) :=
  match current_qa_pair with
  | some pair =>
    if py_strip pair.question ≠ "" ∧ py_strip pair.answer ≠ ""
        ∧ 20 ≤ (py_strip pair.question).length then
      dict_insert [] (py_strip pair.question) (py_strip pair.answer)
    else []
  | none => []

/-- STEP 2's question-text resolution: the session's
`current_question_text` map first (Python truthiness: an empty string also
falls through), then the engine's question map. -/
def resolve_question_text (question_text_map : List (String × String))
    (engine_questions : List (String × QuestionDef)) (label : String) : Option String :=
  match dlookup question_text_map label with
  | some t => if t = "" then fallback_question engine_questions label else some t
  | none => fallback_question engine_questions label

/-- One STEP 2 iteration of the export builder: skip blank answers, resolve
the label, and add the pair when the text is at least 20 characters and not
already present. -/
def build_step2 (question_text_map : List (String × String))
    (engine_questions : List (String × QuestionDef))
    (d : List (String × String)) (lp : String × String) : List (String × String) :=
  if py_strip lp.2 = "" then d
  else
    match resolve_question_text question_text_map engine_questions lp.1 with
    | some qt =>
      if 20 ≤ qt.length then
        if (d.map Prod.fst).contains qt then d else dict_insert d qt (py_strip lp.2)
      else d
    | none => d

/-- `all_answers_by_question` construction of
`chatbot_engine._get_response_with_question_flow` (lines 564-611): STEP 1
adds the current Q/A pair, STEP 2 folds the session answers over it
(the `if session_state["answers"]` truthiness guard skips an empty dict,
which coincides with folding the empty list). -/
def build_answers_by_question (current_qa_pair : Option QAPair)
    (session_answers : List (String × String))
    (question_text_map : List (String × String))
    (engine_questions : List (String × QuestionDef)) : List (String × String) :=
  if session_answers.isEmpty then build_step1 current_qa_pair
  else
    session_answers.foldl (build_step2 question_text_map engine_questions)
      (build_step1 current_qa_pair)

/-- The Q/A capture of `chatbot_engine._get_response_with_question_flow`
(lines 341-369): when a question is pending and the message is non-blank,
resolve the question text — the session's `current_question_text` map by
KEY PRESENCE (an empty stored text is used as-is here, unlike the
builder), else the engine's question map unstripped, else the bare label —
and capture the pair unless the text is empty. No length check is made. -/
def capture_qa_pair (previous_current_q : Option String) (message : String)
    (question_text_map : List (String × String))
    (engine_questions : List (String × QuestionDef)) : Option QAPair :=
  match previous_current_q with
  | none => none
  | some label =>
    if py_strip message = "" then none
    else
      let question_text :=
        match dlookup question_text_map label with
        | some t => t
        | none =>
          match dlookup engine_questions label with
          | some qd => qd.question
          | none => label
      if question_text = "" then none
      else some { question := question_text, answer := py_strip message }

/-- The `temp_qa_storage` content handed to `save_user_responses`
(lines 364-368 store the raw captured pair, lines 620-624 merge in the
builder's dict, line 630 saves the whole storage). -/
def temp_qa_after (temp0 : List (String × String)) (captured : Option QAPair)
    (built : List (String × String)) : List (String × String) :=
  let temp1 :=
    match captured with
    | some pair => dict_insert temp0 pair.question pair.answer
    | none => temp0
  dict_union temp1 built

/-- Shorthand for a flattened question used by the concrete test catalogs. -/
def qd (label text cat subcat : String) : QuestionDef :=
  { label := label
    question := text
    category := cat
    category_title := ""
    subcategory := subcat
    subcategory_title := ""
    old_id := none }

/-- A concrete catalog with three dependency-free questions in one category:
the third eligible question exposes the `MAX_QUESTIONS = 2` truncation. -/
def c3cat : Catalog :=
  { questions :=
      [ ("AA_1", qd "AA_1" "What brings you in today, in your own words?" "A" "AA")
      , ("AA_2", qd "AA_2" "How long have you been experiencing this problem?" "A" "AA")
      , ("AA_3", qd "AA_3" "Have you taken anything for it so far today?" "A" "AA") ]
    dependencies := []
    priorities := [("AA_1", 1), ("AA_2", 1), ("AA_3", 2)]
    flow_order := ["A"] }

/-- A fresh session state (no messages, nothing answered). -/
def fresh_state : FlowState :=
  { messages := []
    answered_questions := ∅
    current_question_id := none
    answers := []
    asked_questions := ∅
    flow_complete := false }

/-- A session state of `c3cat` in which two questions are already answered:
the `MAX_QUESTIONS` cap makes the available set empty. -/
def done_state : FlowState :=
  { messages := [Msg.ai "What brings you in today, in your own words?", Msg.human "headache",
      Msg.ai "How long have you been experiencing this problem?", Msg.human "two days"]
    answered_questions := insert "AA_1" (insert "AA_2" (∅ : Finset String))
    current_question_id := none
    answers := [("AA_1", "headache"), ("AA_2", "two days")]
    asked_questions := insert "AA_1" (insert "AA_2" (∅ : Finset String))
    flow_complete := true }

/-- A parsed `questions.json` with a two-label dependency cycle
(`X` depends on `Y`, `Y` depends on `X`), in the new nested structure. -/
def cycle_doc : QuestionsDoc :=
  { categories :=
      [ ("A", { title := "Intro"
                subcategories := some
                  [ ("AA", { title := "Basics"
                             questions :=
                               [ ("X", "Please describe what brings you in today.")
                               , ("Y", "How long has this been going on for you?") ] }) ] }) ]
    questions := []
    question_dependencies := [("X", ["Y"]), ("Y", ["X"])]
    question_priorities := [("X", 1), ("Y", 1)]
    flow_order := ["A"] }

/-- A parsed document from which no question resolves (empty categories and
empty questions array). -/
def empty_doc : QuestionsDoc :=
  { categories := []
    questions := []
    question_dependencies := []
    question_priorities := []
    flow_order := [] }

/-- Concrete in-memory state for the merge witness: `AA_2` just answered. -/
def mem_state : FlowState :=
  { messages := [Msg.human "two days"]
    answered_questions := insert "AA_2" (∅ : Finset String)
    current_question_id := some "AA_2"
    answers := [("AA_2", "two days")]
    asked_questions := insert "AA_2" (∅ : Finset String)
    flow_complete := false }

/-- Concrete stored (possibly stale) state for the merge witness:
only `AA_1` answered, with an older answer for it. -/
def stored_state : FlowState :=
  { messages := [Msg.ai "What brings you in today, in your own words?", Msg.human "headache"]
    answered_questions := insert "AA_1" (∅ : Finset String)
    current_question_id := some "AA_1"
    answers := [("AA_1", "headache")]
    asked_questions := insert "AA_1" (∅ : Finset String)
    flow_complete := false }

/-- A fresh controller session: nothing asked or answered. -/
def fresh_session : SessionState :=
  { answered_questions := ∅
    answers := []
    current_question_id := none
    asked_questions := ∅
    messages := [] }

/-- A controller session over `c3cat` with both cap-limited questions
answered. -/
def done_session : SessionState :=
  { answered_questions := insert "AA_1" (insert "AA_2" (∅ : Finset String))
    answers := [("AA_1", "headache"), ("AA_2", "two days")]
    current_question_id := none
    asked_questions := insert "AA_1" (insert "AA_2" (∅ : Finset String))
    messages := [] }

theorem availableAux_eq (c : Catalog) (answered : Finset String) :
    ∀ (qs : List (String × QuestionDef)) (acc : List AvailableQ), acc.length < MAX_QUESTIONS →
    availableAux c answered qs acc
      = acc ++ (((qs.filter (eligible c answered)).map (fun p => to_avail p.1 p.2)).take
          (MAX_QUESTIONS - acc.length)) := by
  intro qs
  induction qs with
  | nil => intro acc _; simp [availableAux]
  | cons p rest ih =>
    intro acc hlen
    obtain ⟨question_label, question_data⟩ := p
    by_cases hmem : question_label ∈ answered
    · have helig : eligible c answered (question_label, question_data) = false := by
        simp [eligible, hmem]
      simp only [availableAux, if_pos hmem, List.filter_cons, helig]
      simpa using ih acc hlen
    · by_cases hdeps :
          ((dget c.dependencies question_label []).all (fun dep => decide (dep ∈ answered))) = true
      · have helig : eligible c answered (question_label, question_data) = true := by
          simp [eligible, hmem, hdeps]
        by_cases hstop : MAX_QUESTIONS ≤ (acc ++ [to_avail question_label question_data]).length
        · have hacc : acc.length = MAX_QUESTIONS - 1 := by
            simp at hstop; omega
          simp [availableAux, hmem, hdeps, hstop, helig, List.filter_cons, hacc,
            MAX_QUESTIONS]
        · have hlt : (acc ++ [to_avail question_label question_data]).length < MAX_QUESTIONS := by
            omega
          have hih := ih (acc ++ [to_avail question_label question_data]) hlt
          simp only [availableAux, List.filter_cons, helig]
          rw [if_neg hmem, if_pos hdeps, if_neg hstop, hih]
          have h1 : MAX_QUESTIONS - acc.length = (MAX_QUESTIONS - (acc.length + 1)) + 1 := by
            simp [MAX_QUESTIONS] at hlen ⊢; omega
          rw [h1]
          simp [List.take_succ_cons]
      · have helig : eligible c answered (question_label, question_data) = false := by
          simp [eligible, hdeps]
        simp only [availableAux, List.filter_cons, helig]
        rw [if_neg hmem, if_neg hdeps]
        simpa using ih acc hlen

/-- Closed form of `_get_available_questions`: empty at the cap, otherwise
the first `MAX_QUESTIONS` eligible questions in catalog order. -/
theorem get_available_eq (c : Catalog) (answered : Finset String) :
    get_available_questions c answered
      = if MAX_QUESTIONS ≤ answered.card then []
        else ((c.questions.filter (eligible c answered)).map (fun p => to_avail p.1 p.2)).take
          MAX_QUESTIONS := by
  unfold get_available_questions
  by_cases h : MAX_QUESTIONS ≤ answered.card
  · simp [h]
  · rw [if_neg h, if_neg h, availableAux_eq c answered c.questions [] (by simp [MAX_QUESTIONS])]
    simp

/-- Every question returned by the resolver is unanswered and has all its
dependencies answered. -/
theorem mem_get_available (c : Catalog) (answered : Finset String) (q : AvailableQ)
    (hq : q ∈ get_available_questions c answered) :
    q.id ∉ answered ∧ q.label = q.id ∧
      ∀ dep ∈ dget c.dependencies q.id [], dep ∈ answered := by
  rw [get_available_eq] at hq
  split at hq
  · simp at hq
  · have hq2 := List.mem_of_mem_take hq
    obtain ⟨p, hpmem, rfl⟩ := List.mem_map.mp hq2
    have helig := (List.mem_filter.mp hpmem).2
    simp only [eligible, Bool.and_eq_true, decide_eq_true_eq, List.all_eq_true] at helig
    refine ⟨by simpa [to_avail] using helig.1, rfl, ?_⟩
    intro dep hdep
    simpa using helig.2 dep (by simpa [to_avail] using hdep)

/-- The resolver never returns more than `MAX_QUESTIONS` questions. -/
theorem length_get_available_le (c : Catalog) (answered : Finset String) :
    (get_available_questions c answered).length ≤ MAX_QUESTIONS := by
  rw [get_available_eq]
  split
  · simp
  · exact le_trans (List.length_take_le MAX_QUESTIONS _) le_rfl

/-- `_get_available_questions` returns `[]` as soon as `MAX_QUESTIONS`
labels are answered. -/
theorem get_available_of_card (c : Catalog) (answered : Finset String)
    (h : MAX_QUESTIONS ≤ answered.card) : get_available_questions c answered = [] := by
  unfold get_available_questions
  simp [h]

/-- C1 counterexample: in the three-question dependency-free catalog `c3cat`
with nothing answered, `AA_3` is unanswered and all its dependencies are
answered, yet it is not in the resolver's result (the `MAX_QUESTIONS = 2`
testing cap truncates the eligible set) — the claimed "if and only if"
characterization is false. -/
theorem C1_counterexample :
    ¬ ((∃ q ∈ get_available_questions c3cat (∅ : Finset String), q.label = "AA_3") ↔
       ("AA_3" ∉ (∅ : Finset String) ∧
        ∀ dep ∈ dget c3cat.dependencies "AA_3" [], dep ∈ (∅ : Finset String))) := by
  decide

/-- C1 (amended): every returned question is unanswered with all
dependencies answered; conversely, when fewer than `MAX_QUESTIONS` labels
are answered the result is exactly the first `MAX_QUESTIONS` eligible
questions in catalog order (the testing cap truncates the eligible set),
and once `MAX_QUESTIONS` labels are answered the result is empty. -/
theorem C1_amended_available_characterization (c : Catalog) (answered : Finset String) :
    (∀ q ∈ get_available_questions c answered,
        q.label ∉ answered ∧ ∀ dep ∈ dget c.dependencies q.label [], dep ∈ answered)
    ∧ (answered.card < MAX_QUESTIONS →
        get_available_questions c answered
          = ((c.questions.filter (eligible c answered)).map
              (fun p => to_avail p.1 p.2)).take MAX_QUESTIONS)
    ∧ (MAX_QUESTIONS ≤ answered.card → get_available_questions c answered = []) := by
  refine ⟨?_, ?_, get_available_of_card c answered⟩
  · intro q hq
    obtain ⟨h1, h2, h3⟩ := mem_get_available c answered q hq
    rw [h2]
    exact ⟨h1, h3⟩
  · intro hcard
    rw [get_available_eq, if_neg (by omega)]

/-- Witness for the amended C1 at the concrete catalog `c3cat`. -/
theorem C1_witness :
    (∀ q ∈ get_available_questions c3cat (∅ : Finset String),
        q.label ∉ (∅ : Finset String) ∧
          ∀ dep ∈ dget c3cat.dependencies q.label [], dep ∈ (∅ : Finset String))
    ∧ ((∅ : Finset String).card < MAX_QUESTIONS →
        get_available_questions c3cat ∅
          = ((c3cat.questions.filter (eligible c3cat ∅)).map
              (fun p => to_avail p.1 p.2)).take MAX_QUESTIONS)
    ∧ (MAX_QUESTIONS ≤ (∅ : Finset String).card →
        get_available_questions c3cat ∅ = []) :=
  C1_amended_available_characterization c3cat ∅

/-- Python tuple comparison on the key triples is reflexive. -/
theorem lex_le_refl (x : Int × Int × Int) : lex_le x x := by
  unfold lex_le
  right
  exact ⟨rfl, Or.inr ⟨rfl, le_rfl⟩⟩

/-- Python tuple comparison on the key triples is total. -/
theorem lex_le_total (x y : Int × Int × Int) : lex_le x y ∨ lex_le y x := by
  obtain ⟨a, b, e⟩ := x
  obtain ⟨a2, b2, e2⟩ := y
  unfold lex_le
  simp only []
  omega

/-- Python tuple comparison on the key triples is transitive. -/
theorem lex_le_trans (x y z : Int × Int × Int) (h1 : lex_le x y) (h2 : lex_le y z) :
    lex_le x z := by
  obtain ⟨a, b, e⟩ := x
  obtain ⟨a2, b2, e2⟩ := y
  obtain ⟨a3, b3, e3⟩ := z
  unfold lex_le at h1 h2 ⊢
  simp only [] at h1 h2 ⊢
  omega

/-- The ordering policy returns a permutation of its input. -/
theorem sort_questions_perm (c : Catalog) (l : List AvailableQ) :
    (sort_questions_by_order c l).Perm l :=
  List.perm_insertionSort _ l

/-- Membership is preserved by the ordering policy. -/
theorem mem_sort_questions {c : Catalog} {l : List AvailableQ} {q : AvailableQ} :
    q ∈ sort_questions_by_order c l ↔ q ∈ l :=
  (sort_questions_perm c l).mem_iff

/-- If the fold of the flow-order index dict reaches `some`, the index came
from an entry of the enumerated list. -/
theorem cat_foldl_of_some (category : String) :
    ∀ (l : List (Nat × String)) (acc : Option Int) (j : Int),
      l.foldl (fun acc p => if p.2 = category then some (Int.ofNat p.1) else acc) acc = some j →
      (∃ p ∈ l, p.2 = category ∧ j = Int.ofNat p.1) ∨ acc = some j := by
  intro l
  induction l with
  | nil => intro acc j h; exact Or.inr h
  | cons p rest ih =>
    intro acc j h
    simp only [List.foldl_cons] at h
    rcases ih _ j h with hl | hacc
    · obtain ⟨q, hq, hq2, hq3⟩ := hl
      exact Or.inl ⟨q, List.mem_cons_of_mem _ hq, hq2, hq3⟩
    · by_cases hp : p.2 = category
      · rw [if_pos hp] at hacc
        exact Or.inl ⟨p, List.mem_cons_self _ _, hp, by simpa using hacc.symm⟩
      · rw [if_neg hp] at hacc
        exact Or.inr hacc

/-- The fold of the flow-order index dict stays `some` once it is `some`. -/
theorem cat_foldl_isSome_preserve (category : String) :
    ∀ (l : List (Nat × String)) (acc : Option Int), acc.isSome →
      (l.foldl (fun acc p => if p.2 = category then some (Int.ofNat p.1) else acc) acc).isSome := by
  intro l
  induction l with
  | nil => intro acc h; exact h
  | cons p rest ih =>
    intro acc h
    simp only [List.foldl_cons]
    by_cases hp : p.2 = category
    · exact ih _ (by simp [hp])
    · exact ih _ (by simpa [hp] using h)

/-- The fold of the flow-order index dict hits `some` when the category
occurs in the list. -/
theorem cat_foldl_isSome (category : String) :
    ∀ (l : List (Nat × String)) (acc : Option Int), (∃ p ∈ l, p.2 = category) →
      (l.foldl (fun acc p => if p.2 = category then some (Int.ofNat p.1) else acc) acc).isSome := by
  intro l
  induction l with
  | nil => intro acc h; simp at h
  | cons p rest ih =>
    intro acc h
    simp only [List.foldl_cons]
    by_cases hp : p.2 = category
    · exact cat_foldl_isSome_preserve category rest _ (by simp [hp])
    · rcases h with ⟨q, hq, hq2⟩
      rcases List.mem_cons.mp hq with rfl | hq3
    
      · exact absurd hq2 hp
      · exact ih _ ⟨q, hq3, hq2⟩

/-- A category present in `flow_order` gets its enumeration index,
which is nonnegative and below the length of `flow_order`. -/
theorem category_order_known (c : Catalog) (category : String)
    (h : category ∈ c.flow_order) :
    0 ≤ category_order c category ∧
      category_order c category < (c.flow_order.length : Int) := by
  unfold category_order
  have hsome := cat_foldl_isSome category c.flow_order.enum none
    (by
      obtain ⟨i, hi, hcat⟩ := List.mem_iff_getElem.mp h
      exact ⟨(i, category),
        List.mem_enum_iff_getElem?.mpr (by simp [List.getElem?_eq_getElem hi, hcat]), rfl⟩)
  obtain ⟨j, hj⟩ := Option.isSome_iff_exists.mp hsome
  rw [hj]
  rcases cat_foldl_of_some category c.flow_order.enum none j hj with hfound | hbad
  · obtain ⟨p, hp, _, rfl⟩ := hfound
    obtain ⟨hlt, _⟩ := List.mem_enum (x := p.2) (i := p.1) (by simpa using hp)
    simp
    omega
  · simp at hbad

/-- A category absent from `flow_order` gets the default index `999`. -/
theorem category_order_unknown (c : Catalog) (category : String)
    (h : category ∉ c.flow_order) : category_order c category = 999 := by
  unfold category_order
  rcases hfold : c.flow_order.enum.foldl
      (fun acc p => if p.2 = category then some (Int.ofNat p.1) else acc) none with _ | j
  · rw [hfold]
    rfl
  · rcases cat_foldl_of_some category c.flow_order.enum none j hfold with hfound | hbad
    · obtain ⟨p, hp, hcat, rfl⟩ := hfound
      obtain ⟨i, cat2⟩ := p
      simp only at hcat
      obtain ⟨hlt, hx⟩ := List.mem_enum hp
      refine absurd ?_ h
      rw [← hcat, hx]
      exact List.getElem_mem hlt
    · simp at hbad

/-- C3: the ordering policy returns a permutation of its input, sorted
ascending by the key triple (flow-order index of the category, priority,
sequence number parsed from the label suffix — each defaulting to 999 when
unknown/unset/non-numeric), the sort is stable on ties, and (whenever
`flow_order` has at most 999 entries, as any real catalog does) a known
category sorts strictly before an unknown one. -/
theorem C3_ordering_policy (c : Catalog) (questions : List AvailableQ)
    (h999 : c.flow_order.length ≤ 999) :
    (sort_questions_by_order c questions).Perm questions
    ∧ List.Sorted (fun a b => lex_le (sort_key c a) (sort_key c b))
        (sort_questions_by_order c questions)
    ∧ (∀ a b, sort_key c a = sort_key c b → List.Sublist [a, b] questions →
        List.Sublist [a, b] (sort_questions_by_order c questions))
    ∧ (∀ q q' : AvailableQ, q.category ∈ c.flow_order → q'.category ∉ c.flow_order →
        category_order c q.category < category_order c q'.category) := by
  refine ⟨sort_questions_perm c questions, ?_, ?_, ?_⟩
  · haveI : IsTotal AvailableQ (fun a b => lex_le (sort_key c a) (sort_key c b)) :=
      ⟨fun a b => lex_le_total _ _⟩
    haveI : IsTrans AvailableQ (fun a b => lex_le (sort_key c a) (sort_key c b)) :=
      ⟨fun a b d h1 h2 => lex_le_trans _ _ _ h1 h2⟩
    exact List.sorted_insertionSort _ questions
  · intro a b hk hsub
    exact List.pair_sublist_insertionSort (hk ▸ lex_le_refl (sort_key c a)) hsub
  · intro q q' hq hq'
    obtain ⟨_, hlt⟩ := category_order_known c q.category hq
    rw [category_order_unknown c q'.category hq']
    have hle : (c.flow_order.length : Int) ≤ 999 := by exact_mod_cast h999
    omega

/-- Witness for C3 at the concrete catalog `c3cat` and a two-question list
given in reverse catalog order. -/
theorem C3_witness :
    (sort_questions_by_order c3cat
        [to_avail "AA_2" (qd "AA_2" "Q2" "A" "AA"), to_avail "AA_1" (qd "AA_1" "Q1" "A" "AA")]).Perm
        [to_avail "AA_2" (qd "AA_2" "Q2" "A" "AA"), to_avail "AA_1" (qd "AA_1" "Q1" "A" "AA")]
    ∧ List.Sorted (fun a b => lex_le (sort_key c3cat a) (sort_key c3cat b))
        (sort_questions_by_order c3cat
          [to_avail "AA_2" (qd "AA_2" "Q2" "A" "AA"), to_avail "AA_1" (qd "AA_1" "Q1" "A" "AA")])
    ∧ (∀ a b, sort_key c3cat a = sort_key c3cat b →
        List.Sublist [a, b]
          [to_avail "AA_2" (qd "AA_2" "Q2" "A" "AA"), to_avail "AA_1" (qd "AA_1" "Q1" "A" "AA")] →
        List.Sublist [a, b]
          (sort_questions_by_order c3cat
            [to_avail "AA_2" (qd "AA_2" "Q2" "A" "AA"), to_avail "AA_1" (qd "AA_1" "Q1" "A" "AA")]))
    ∧ (∀ q q' : AvailableQ, q.category ∈ c3cat.flow_order → q'.category ∉ c3cat.flow_order →
        category_order c3cat q.category < category_order c3cat q'.category) :=
  C3_ordering_policy c3cat
    [to_avail "AA_2" (qd "AA_2" "Q2" "A" "AA"), to_avail "AA_1" (qd "AA_1" "Q1" "A" "AA")]
    (by decide)

/-- A judged selection always names a member of the candidate list. -/
theorem judge_some_mem (c : Catalog) (avail : List AvailableQ)
    (hist ans : List (String × String)) (sid : String)
    (hj : judge_next_question c avail hist ans = some sid) :
    ∃ q ∈ avail, q.id = sid := by
  by_cases he : avail.isEmpty
  · simp [judge_next_question, he] at hj
  · rcases hs : sort_questions_by_order c avail with _ | ⟨q, rest⟩
    · simp [judge_next_question, he, hs] at hj
    · unfold judge_next_question at hj
      rw [hs] at hj
      simp only [if_neg he, Option.some.injEq] at hj
      refine ⟨q, ?_, hj⟩
      exact mem_sort_questions.mp (by rw [hs]; exact List.mem_cons_self q rest)

/-- The fallback of `_select_question_node` only emits a member of the
candidate list. -/
theorem select_fallback_mem (c : Catalog) (state : FlowState) (available : List AvailableQ)
    (l : String) (h : (select_fallback c state available).current_question_id = some l) :
    ∃ q ∈ available, q.id = l := by
  unfold select_fallback at h
  rcases hs : sort_questions_by_order c available with _ | ⟨q, rest⟩ <;> rw [hs] at h
  · simp at h
  · simp only [Option.some.injEq] at h
    refine ⟨q, ?_, h⟩
    exact mem_sort_questions.mp (by rw [hs]; exact List.mem_cons_self q rest)

/-- The fallback changes nothing but `current_question_id`/`flow_complete`. -/
theorem select_fallback_fields (c : Catalog) (state : FlowState) (available : List AvailableQ) :
    (select_fallback c state available).answered_questions = state.answered_questions
    ∧ (select_fallback c state available).answers = state.answers := by
  unfold select_fallback
  rcases sort_questions_by_order c available with _ | ⟨q, rest⟩ <;> exact ⟨rfl, rfl⟩

/-- Whatever `_select_question_node` sets as the next question comes from
the available list computed for the merged answered set. -/
theorem select_some_mem (c : Catalog) (state : FlowState) (l : String)
    (h : (select_question_node c state).current_question_id = some l) :
    ∃ q ∈ get_available_questions c (merged_answered state), q.id = l := by
  simp only [select_question_node] at h
  by_cases he : (get_available_questions c
      (state.answered_questions ∪ (state.answers.map Prod.fst).toFinset)).isEmpty
  · rw [if_pos he] at h
    simp at h
  · rw [if_neg he] at h
    rcases hj : judge_next_question c
        (get_available_questions c
          (state.answered_questions ∪ (state.answers.map Prod.fst).toFinset))
        state.answers state.answers with _ | sid
    · rw [hj] at h
      simp only [] at h
      exact select_fallback_mem c _ _ l h
    · rw [hj] at h
      simp only [] at h
      by_cases hin : sid ∈ state.answered_questions ∪ (state.answers.map Prod.fst).toFinset
      · rw [if_pos hin] at h
        by_cases h2e : ((get_available_questions c
            (state.answered_questions ∪ (state.answers.map Prod.fst).toFinset)).filter
              (fun q => q.id ≠ sid)).isEmpty
        · rw [if_pos h2e] at h
          simp only [] at h
          obtain ⟨q, hq, hq2⟩ := select_fallback_mem c _ _ l h
          exact ⟨q, (List.mem_filter.mp hq).1, hq2⟩
        · rw [if_neg h2e] at h
          rcases hs : sort_questions_by_order c
              ((get_available_questions c
                (state.answered_questions ∪ (state.answers.map Prod.fst).toFinset)).filter
                  (fun q => q.id ≠ sid)) with _ | ⟨q0, rest⟩ <;> rw [hs] at h
          · simp only [] at h
            obtain ⟨q, hq, hq2⟩ := select_fallback_mem c _ _ l h
            exact ⟨q, (List.mem_filter.mp hq).1, hq2⟩
          · simp only [] at h
            by_cases hm : q0.id ∈ ((get_available_questions c
                (state.answered_questions ∪ (state.answers.map Prod.fst).toFinset)).filter
                  (fun q => q.id ≠ sid)).map (fun q => q.id)
            · rw [if_pos hm] at h
              simp only [Option.some.injEq] at h
              have hq0 : q0 ∈ (get_available_questions c
                  (state.answered_questions ∪ (state.answers.map Prod.fst).toFinset)).filter
                    (fun q => q.id ≠ sid) :=
                mem_sort_questions.mp (by rw [hs]; exact List.mem_cons_self q0 rest)
              exact ⟨q0, (List.mem_filter.mp hq0).1, h⟩
            · rw [if_neg hm] at h
              obtain ⟨q, hq, hq2⟩ := select_fallback_mem c _ _ l h
              exact ⟨q, (List.mem_filter.mp hq).1, hq2⟩
      · rw [if_neg hin] at h
        simp only [] at h
        by_cases hm : sid ∈ (get_available_questions c
            (state.answered_questions ∪ (state.answers.map Prod.fst).toFinset)).map
              (fun q => q.id)
        · rw [if_pos hm] at h
          simp only [Option.some.injEq] at h
          obtain ⟨q, hq, hq2⟩ := List.mem_map.mp hm
          exact ⟨q, hq, by rw [hq2, h]⟩
        · rw [if_neg hm] at h
          exact select_fallback_mem c _ _ l h

/-- C2: the selector never emits an already-answered label — whenever
`_select_question_node` returns a state with a pending question, that label
is neither in `answered_questions` nor a key of the `answers` dict (the
defensive backstop that discards and re-selects is part of the embedded
definition; the primary mechanism already guarantees the invariant). -/
theorem C2_selector_never_repeats (c : Catalog) (state : FlowState) (l : String)
    (h : (select_question_node c state).current_question_id = some l) :
    l ∉ state.answered_questions ∧ l ∉ (state.answers.map Prod.fst).toFinset := by
  obtain ⟨q, hq, rfl⟩ := select_some_mem c state l h
  obtain ⟨hnot, _, _⟩ := mem_get_available c _ q hq
  unfold merged_answered at hnot
  constructor
  · intro hx; exact hnot (Finset.mem_union_left _ hx)
  · intro hx; exact hnot (Finset.mem_union_right _ hx)

/-- Witness for C2: on a fresh session over `c3cat` the selector picks
`AA_1`, which is indeed unanswered. -/
theorem C2_witness :
    "AA_1" ∉ fresh_state.answered_questions
    ∧ "AA_1" ∉ (fresh_state.answers.map Prod.fst).toFinset :=
  C2_selector_never_repeats c3cat fresh_state "AA_1" (by decide)

/-- C4: selection is a pure function of `(catalog, answeredLabels)` — the
answered collection may arrive in any order (it is converted to a set), and
the conversation history and answer map passed to the judge are ignored, so
two calls with the same answered set return the identical label. -/
theorem C4_selection_deterministic (c : Catalog) (answered1 answered2 : List String)
    (h : answered1.toFinset = answered2.toFinset)
    (hist1 hist2 ans1 ans2 : List (String × String)) :
    judge_next_question c (get_available_questions_from_list c answered1) hist1 ans1
    = judge_next_question c (get_available_questions_from_list c answered2) hist2 ans2 := by
  unfold get_available_questions_from_list
  rw [h]
  simp only [judge_next_question]

/-- Witness for C4: two permutations of the same answered labels, with
different histories and answer maps, select the same next question. -/
theorem C4_witness :
    judge_next_question c3cat (get_available_questions_from_list c3cat ["AA_1"])
      [("AA_1", "headache")] [("AA_1", "headache")]
    = judge_next_question c3cat (get_available_questions_from_list c3cat ["AA_1", "AA_1"])
      [] [("AA_1", "maybe a migraine")] :=
  C4_selection_deterministic c3cat ["AA_1"] ["AA_1", "AA_1"] (by decide)
    [("AA_1", "headache")] [] [("AA_1", "headache")] [("AA_1", "maybe a migraine")]

/-- Updating a key of the answers dict inserts exactly that key. -/
theorem keys_toFinset_dict_insert (m : List (String × String)) (k v : String) :
    ((dict_insert m k v).map Prod.fst).toFinset = insert k ((m.map Prod.fst).toFinset) := by
  unfold dict_insert
  by_cases hc : m.any (fun p => p.1 == k)
  · rw [if_pos hc]
    have hkeys : (m.map (fun p => if p.1 = k then (k, v) else p)).map Prod.fst
        = m.map Prod.fst := by
      rw [List.map_map]
      apply List.map_congr_left
      intro p _
      by_cases hp : p.1 = k
      · simp [hp]
      · simp [hp]
    rw [hkeys]
    have hk : k ∈ (m.map Prod.fst).toFinset := by
      simp only [List.any_eq_true, beq_iff_eq] at hc
      obtain ⟨p, hp, hpk⟩ := hc
      simp only [List.mem_toFinset, List.mem_map]
      exact ⟨p, hp, hpk⟩
    rw [Finset.insert_eq_self.mpr hk]
  · rw [if_neg hc]
    rw [List.map_append, List.toFinset_append]
    simp [Finset.union_comm, Finset.insert_eq]


/-- Recording an answer inserts exactly that label into the merged set. -/
theorem merged_record_answer (s : FlowState) (q a : String) :
    merged_answered (record_answer s q a) = insert q (merged_answered s) := by
  apply Finset.ext
  intro x
  simp [merged_answered, record_answer, keys_toFinset_dict_insert]

/-- `_process_answer_node` leaves the merged answered set unchanged or adds
exactly one label to it. -/
theorem merged_process_answer (c : Catalog) (s : FlowState) :
    merged_answered (process_answer_node c s) = merged_answered s
    ∨ ∃ q, merged_answered (process_answer_node c s) = insert q (merged_answered s) := by
  unfold process_answer_node
  by_cases hemp : s.messages.isEmpty
  · rw [if_pos hemp]
    exact Or.inl rfl
  · rw [if_neg hemp]
    cases hfl : find_last_human s.messages with
    | none => exact Or.inl rfl
    | some answer =>
      cases hcur : s.current_question_id with
      | some qid => exact Or.inr ⟨qid, merged_record_answer s qid answer⟩
      | none =>
        cases hfm : find_question_in_reversed c s.messages.reverse with
        | none => exact Or.inl rfl
        | some qid2 =>
          refine Or.inr ⟨qid2, ?_⟩
          rw [merged_record_answer]
          rfl

/-- If no question is available for the merged answered set of a state that
has at least one recorded answer, none is available after answer
processing either: the processed set is the same or hits the cap. -/
theorem available_empty_after_process (c : Catalog) (s : FlowState)
    (h1 : get_available_questions c (merged_answered s) = [])
    (h2 : merged_answered s ≠ ∅) :
    get_available_questions c (merged_answered (process_answer_node c s)) = [] := by
  rcases merged_process_answer c s with he | ⟨q, he⟩
  · rw [he]
    exact h1
  · rw [he]
    by_cases hq : q ∈ merged_answered s
    · rw [Finset.insert_eq_self.mpr hq]
      exact h1
    · apply get_available_of_card
      rw [Finset.card_insert_of_not_mem hq]
      have hpos : 1 ≤ (merged_answered s).card :=
        Finset.card_pos.mpr (Finset.nonempty_iff_ne_empty.mpr h2)
      simp only [MAX_QUESTIONS]
      omega

/-- With no available question, `_select_question_node` marks the flow
complete and clears the pending question. -/
theorem select_of_available_empty (c : Catalog) (s : FlowState)
    (h : get_available_questions c (merged_answered s) = []) :
    select_question_node c s =
      { s with answered_questions := merged_answered s
               flow_complete := true
               current_question_id := none } := by
  have h' : get_available_questions c
      (s.answered_questions ∪ (s.answers.map Prod.fst).toFinset) = [] := h
  simp only [select_question_node, h', List.isEmpty_nil, if_true]
  rfl

/-- `_ask_question_node` is the identity when no question is pending. -/
theorem ask_question_node_none (c : Catalog) (s : FlowState)
    (h : s.current_question_id = none) : ask_question_node c s = s := by
  unfold ask_question_node
  rw [h]

/-- `_check_completion_node` only recomputes the completion flag. -/
theorem check_completion_fields (c : Catalog) (s : FlowState) :
    (check_completion_node c s).flow_complete
        = (get_available_questions c s.answered_questions).isEmpty
    ∧ merged_answered (check_completion_node c s) = merged_answered s :=
  ⟨rfl, rfl⟩

/-- Overwriting `answered_questions` with the merged set is idempotent for
the merged set. -/
theorem merged_update_answered (s : FlowState) :
    merged_answered
      { s with answered_questions := merged_answered s
               flow_complete := true
               current_question_id := none }
      = merged_answered s := by
  apply Finset.ext
  intro x
  simp [merged_answered]

/-- One graph pass on a flow state whose merged answered set is nonempty
and has no available question: the flow comes out complete, the final
`answered_questions` field equals the merged set, and the same hypotheses
hold again afterwards. -/
theorem workflow_step_complete (c : Catalog) (fs : FlowState)
    (h1 : get_available_questions c (merged_answered fs) = [])
    (h2 : merged_answered fs ≠ ∅) :
    (workflow_step c fs).flow_complete = true
    ∧ get_available_questions c (merged_answered (workflow_step c fs)) = []
    ∧ merged_answered (workflow_step c fs) ≠ ∅
    ∧ (workflow_step c fs).answered_questions = merged_answered (workflow_step c fs) := by
  unfold workflow_step
  set s1 := process_answer_node c fs with hs1
  have ha1 : get_available_questions c (merged_answered s1) = [] :=
    available_empty_after_process c fs h1 h2
  have hne1 : merged_answered s1 ≠ ∅ := by
    rcases merged_process_answer c fs with he | ⟨q, he⟩
    · rw [hs1, he]
      exact h2
    · rw [hs1, he]
      exact Finset.insert_ne_empty _ _
  rw [select_of_available_empty c s1 ha1]
  set s2 : FlowState :=
    { s1 with answered_questions := merged_answered s1
              flow_complete := true
              current_question_id := none } with hs2
  rw [ask_question_node_none c s2 (by rw [hs2])]
  have hans2 : s2.answered_questions = merged_answered s1 := by rw [hs2]
  have hm2 : merged_answered s2 = merged_answered s1 := by
    rw [hs2]
    exact merged_update_answered s1
  refine ⟨?_, ?_, ?_, ?_⟩
  · rw [(check_completion_fields c s2).1, hans2, ha1]
    rfl
  · rw [(check_completion_fields c s2).2, hm2]
    exact ha1
  · rw [(check_completion_fields c s2).2, hm2]
    exact hne1
  · rw [(check_completion_fields c s2).2, hm2]
    show s2.answered_questions = merged_answered s1
    exact hans2

/-- The graph invocation with the user message appended, on a state whose
merged answered set is nonempty and has no available question. -/
theorem step_complete (c : Catalog) (s : FlowState)
    (h1 : get_available_questions c (merged_answered s) = [])
    (h2 : merged_answered s ≠ ∅) (m : String) :
    (run_workflow c s m).flow_complete = true
    ∧ get_available_questions c (merged_answered (run_workflow c s m)) = []
    ∧ merged_answered (run_workflow c s m) ≠ ∅ := by
  unfold run_workflow
  have h1' : get_available_questions c
      (merged_answered { s with messages := s.messages ++ [Msg.human m] }) = [] := h1
  have h2' : merged_answered { s with messages := s.messages ++ [Msg.human m] } ≠ ∅ := h2
  obtain ⟨a, b, d, -⟩ := workflow_step_complete c _ h1' h2'
  exact ⟨a, b, d⟩

/-- Marking the pending question answered adds at most that one label to
the session's merged set. -/
theorem marked_merged (s : SessionState) (m : String) :
    session_merged (mark_current_answered s m) = session_merged s
    ∨ ∃ q, s.current_question_id = some q
        ∧ session_merged (mark_current_answered s m) = insert q (session_merged s) := by
  unfold mark_current_answered
  cases hc : s.current_question_id with
  | none => exact Or.inl rfl
  | some q =>
    refine Or.inr ⟨q, rfl, ?_⟩
    apply Finset.ext
    intro x
    simp [session_merged, keys_toFinset_dict_insert]

/-- The merged set of the graph input is the marked session's merged set. -/
theorem merged_initial_flow_state (s : SessionState) (m : String) :
    merged_answered (initial_flow_state s m)
      = session_merged (mark_current_answered s m) := rfl

/-- The caller-visible fields of a non-first-interaction `process_message`
call, in terms of the graph pass on `initial_flow_state`. -/
theorem process_message_not_first (c : Catalog) (s : SessionState) (m : String)
    (hfirst : ¬(s.answered_questions.card = 0 ∧ s.current_question_id = none)) :
    (process_message c s m).flow_complete
        = (workflow_step c (initial_flow_state s m)).flow_complete
    ∧ (process_message c s m).session.answered_questions
        = merged_answered (workflow_step c (initial_flow_state s m))
    ∧ (process_message c s m).session.answers
        = (workflow_step c (initial_flow_state s m)).answers := by
  unfold process_message
  rw [if_neg hfirst]
  exact ⟨rfl, rfl, rfl⟩

/-- The merged set absorbs the answer keys. -/
theorem merged_union_keys (fs : FlowState) :
    merged_answered fs ∪ (fs.answers.map Prod.fst).toFinset = merged_answered fs := by
  apply Finset.ext
  intro x
  simp [merged_answered]

/-- One controller call on a session with at least one answered label and
no available question for its merged set: the call reports completion, and
the updated session satisfies the same hypotheses. -/
theorem process_message_complete (c : Catalog) (s : SessionState)
    (h1 : get_available_questions c (session_merged s) = [])
    (h2 : s.answered_questions ≠ ∅) (m : String) :
    (process_message c s m).flow_complete = true
    ∧ get_available_questions c (session_merged (process_message c s m).session) = []
    ∧ (process_message c s m).session.answered_questions ≠ ∅ := by
  have hfirst : ¬(s.answered_questions.card = 0 ∧ s.current_question_id = none) := by
    rintro ⟨hcard, -⟩
    exact h2 (Finset.card_eq_zero.mp hcard)
  have hsub : s.answered_questions ⊆ session_merged s := Finset.subset_union_left
  have hne : session_merged s ≠ ∅ := by
    intro he
    exact h2 (Finset.subset_empty.mp (he ▸ hsub))
  have hM1 : get_available_questions c (merged_answered (initial_flow_state s m)) = [] := by
    rw [merged_initial_flow_state]
    rcases marked_merged s m with he | ⟨q, -, he⟩
    · rw [he]
      exact h1
    · rw [he]
      by_cases hq : q ∈ session_merged s
      · rw [Finset.insert_eq_self.mpr hq]
        exact h1
      · apply get_available_of_card
        rw [Finset.card_insert_of_not_mem hq]
        have hpos : 1 ≤ (session_merged s).card :=
          Finset.card_pos.mpr (Finset.nonempty_iff_ne_empty.mpr hne)
        simp only [MAX_QUESTIONS]
        omega
  have hM2 : merged_answered (initial_flow_state s m) ≠ ∅ := by
    rw [merged_initial_flow_state]
    rcases marked_merged s m with he | ⟨q, -, he⟩
    · rw [he]
      exact hne
    · rw [he]
      exact Finset.insert_ne_empty _ _
  obtain ⟨hfc, hav, hneF, hansF⟩ := workflow_step_complete c (initial_flow_state s m) hM1 hM2
  obtain ⟨e1, e2, e3⟩ := process_message_not_first c s m hfirst
  refine ⟨by rw [e1]; exact hfc, ?_, ?_⟩
  · unfold session_merged
    rw [e2, e3, merged_union_keys]
    exact hav
  · rw [e2]
    exact hneF

/-- C5 counterexample: over the cyclic catalog of scenario 2 (which C7
shows loads successfully), a fresh session has NO available question for
its answered labels, yet `process_message` takes the first-interaction
branch, never invokes the graph, reports `flow_complete = False` on this
call and the next, and leaves the session unchanged — so the flag never
becomes true, refuting the claim as stated. -/
theorem C5_counterexample :
    get_available_questions (init_catalog cycle_doc) (session_merged fresh_session) = []
    ∧ (process_message (init_catalog cycle_doc) fresh_session "Hello").flow_complete = false
    ∧ (process_message (init_catalog cycle_doc)
        (session_step (init_catalog cycle_doc) fresh_session "Hello")
        "Hello again").flow_complete = false
    ∧ session_step (init_catalog cycle_doc) fresh_session "Hello" = fresh_session := by
  refine ⟨by decide, by decide, by decide, by decide⟩

/-- C5 (amended): for a session with at least one answered label — any
session that ever ran the graph has one; only a session stuck in the
first-interaction state over a catalog with no initially-eligible question
does not, and there the controller keeps reporting `flow_complete = False`
(the counterexample) — once no question is available for the session's
merged answered labels, every subsequent `process_message` call reports
`flow_complete = true`, however many calls intervene (no reset exists in
the engine; `reset_flow` only clears the external embedding store). -/
theorem C5_amended_completion_monotonic (c : Catalog) (s : SessionState)
    (h1 : get_available_questions c (session_merged s) = [])
    (h2 : s.answered_questions ≠ ∅)
    (ms : List String) (m : String) :
    (process_message c (ms.foldl (session_step c) s) m).flow_complete = true := by
  have main : ∀ (ms : List String) (t : SessionState),
      get_available_questions c (session_merged t) = [] → t.answered_questions ≠ ∅ →
      (process_message c (ms.foldl (session_step c) t) m).flow_complete = true := by
    intro ms
    induction ms with
    | nil =>
      intro t ha hn
      exact (process_message_complete c t ha hn m).1
    | cons x rest ih =>
      intro t ha hn
      obtain ⟨-, ha2, hn2⟩ := process_message_complete c t ha hn x
      exact ih _ ha2 hn2
  exact main ms s h1 h2

/-- Witness for the amended C5: `done_session` has two answered labels and
no available question; after one more call the next call still reports
completion. -/
theorem C5_witness :
    get_available_questions c3cat (session_merged done_session) = []
    ∧ done_session.answered_questions ≠ ∅
    ∧ (process_message c3cat (["thanks"].foldl (session_step c3cat) done_session)
        "bye").flow_complete = true :=
  ⟨by decide, by decide,
    C5_amended_completion_monotonic c3cat done_session (by decide) (by decide) ["thanks"] "bye"⟩

/-- C10: the resolver's hard cap — at most `MAX_QUESTIONS = 2` questions are
ever returned, the result is empty whenever two or more labels are
answered, and a session with two recorded answers is complete after the
next controller call, whatever the catalog holds. -/
theorem C10_cap_and_completion (c : Catalog) (answered : Finset String)
    (s : FlowState) (m : String) :
    (get_available_questions c answered).length ≤ MAX_QUESTIONS
    ∧ (MAX_QUESTIONS ≤ answered.card → get_available_questions c answered = [])
    ∧ (MAX_QUESTIONS ≤ (merged_answered s).card →
        (run_workflow c s m).flow_complete = true) := by
  refine ⟨length_get_available_le c answered, get_available_of_card c answered, ?_⟩
  intro hcard
  have h1 : get_available_questions c (merged_answered s) = [] :=
    get_available_of_card c _ hcard
  have h2 : merged_answered s ≠ ∅ := by
    intro he
    rw [he] at hcard
    simp [MAX_QUESTIONS] at hcard
  exact (step_complete c s h1 h2 m).1

/-- Witness for C10 at `c3cat` (three questions) and `done_state`
(two answers recorded). -/
theorem C10_witness :
    ((get_available_questions c3cat (merged_answered done_state)).length ≤ MAX_QUESTIONS
      ∧ (MAX_QUESTIONS ≤ (merged_answered done_state).card →
          get_available_questions c3cat (merged_answered done_state) = [])
      ∧ (MAX_QUESTIONS ≤ (merged_answered done_state).card →
          (run_workflow c3cat done_state "bye").flow_complete = true))
    ∧ MAX_QUESTIONS ≤ (merged_answered done_state).card :=
  ⟨C10_cap_and_completion c3cat (merged_answered done_state) done_state "bye", by decide⟩


/-- A key is found by `dlookup` exactly when the dict contains it. -/
theorem any_keys_iff_dlookup_isSome {α : Type} (m : List (String × α)) (k : String) :
    m.any (fun p => p.1 == k) = true ↔ (dlookup m k).isSome = true := by
  induction m with
  | nil => simp [dlookup]
  | cons p rest ih =>
    by_cases hp : p.1 = k
    · simp [dlookup, hp]
    · simp [dlookup, hp, ih]

/-- `dlookup` of an absent key is `none`. -/
theorem dlookup_eq_none_of_not_mem {α : Type} (m : List (String × α)) (k : String)
    (h : k ∉ m.map Prod.fst) : dlookup m k = none := by
  induction m with
  | nil => rfl
  | cons p rest ih =>
    simp only [List.map_cons, List.mem_cons] at h
    push_neg at h
    rw [show dlookup (p :: rest) k = if p.1 = k then some p.2 else dlookup rest k from rfl]
    rw [if_neg (fun hp : p.1 = k => h.1 hp.symm)]
    exact ih h.2

/-- `dlookup` through the in-place replacement of `dict_insert`. -/
theorem dlookup_map_replace {α : Type} (m : List (String × α)) (k k2 : String) (v : α) :
    dlookup (m.map (fun p => if p.1 = k then (k, v) else p)) k2
      = if k2 = k then (dlookup m k).map (fun _ => v) else dlookup m k2 := by
  induction m with
  | nil => by_cases h : k2 = k <;> simp [dlookup, h]
  | cons p rest ih =>
    simp only [List.map_cons, dlookup]
    by_cases hp : p.1 = k
    · by_cases hk : k2 = k
      · subst hk
        simp [dlookup, hp]
      · have hk2 : ¬k = k2 := fun h => hk h.symm
        have hpk2 : ¬p.1 = k2 := by rw [hp]; exact hk2
        simp [dlookup, hp, hk, hk2, hpk2, ih]
    · by_cases hk : k2 = k
      · subst hk
        simp [dlookup, hp, ih]
      · by_cases hpk2 : p.1 = k2
        · simp [dlookup, hp, hk, hpk2]
        · simp [dlookup, hp, hk, hpk2, ih]

/-- `dlookup` through an append. -/
theorem dlookup_append {α : Type} (m l : List (String × α)) (k : String) :
    dlookup (m ++ l) k
      = match dlookup m k with
        | some v => some v
        | none => dlookup l k := by
  induction m with
  | nil => simp [dlookup]
  | cons p rest ih =>
    by_cases hp : p.1 = k
    · simp [dlookup, hp]
    · simp [dlookup, hp, ih]

/-- `dlookup` after `dict_insert`: the inserted key wins, others unchanged. -/
theorem dlookup_dict_insert {α : Type} (m : List (String × α)) (k : String) (v : α)
    (k2 : String) :
    dlookup (dict_insert m k v) k2 = if k2 = k then some v else dlookup m k2 := by
  unfold dict_insert
  by_cases hc : m.any (fun p => p.1 == k)
  · rw [if_pos hc, dlookup_map_replace]
    by_cases hk : k2 = k
    · rw [if_pos hk, if_pos hk]
      obtain ⟨w, hw⟩ := Option.isSome_iff_exists.mp ((any_keys_iff_dlookup_isSome m k).mp hc)
      rw [hw]
      rfl
    · rw [if_neg hk, if_neg hk]
  · rw [if_neg hc, dlookup_append]
    have hnone : dlookup m k = none := by
      rcases ho : dlookup m k with _ | w
      · rfl
      · exact absurd ((any_keys_iff_dlookup_isSome m k).mpr (by simp [ho])) hc
    by_cases hk : k2 = k
    · subst hk
      rw [hnone]
      simp [dlookup]
    · have hk2 : ¬k = k2 := fun h => hk h.symm
      rcases ho : dlookup m k2 with _ | w
      · simp [ho, dlookup, hk, hk2]
      · simp [ho, hk]

/-- `dlookup` through `{**base, **overlay}`: overlay wins per key. -/
theorem dlookup_dict_union (base overlay : List (String × String)) (k : String)
    (hnd : (overlay.map Prod.fst).Nodup) :
    dlookup (dict_union base overlay) k
      = match dlookup overlay k with
        | some v => some v
        | none => dlookup base k := by
  induction overlay generalizing base with
  | nil => simp [dict_union, dlookup]
  | cons p o ih =>
    simp only [List.map_cons, List.nodup_cons] at hnd
    have hstep : dict_union base (p :: o) = dict_union (dict_insert base p.1 p.2) o := rfl
    rw [hstep, ih _ hnd.2]
    by_cases hk : k = p.1
    · subst hk
      rw [dlookup_eq_none_of_not_mem o p.1 hnd.1]
      simp [dlookup, dlookup_dict_insert]
    · have hk2 : ¬p.1 = k := fun h => hk h.symm
      rcases ho : dlookup o k with _ | w
      · simp [dlookup, dlookup_dict_insert, hk, hk2, ho]
      · simp [dlookup, hk2, ho]

/-- Keys of `{**base, **overlay}` as a set: the union of both key sets. -/
theorem keys_toFinset_dict_union (base overlay : List (String × String)) :
    ((dict_union base overlay).map Prod.fst).toFinset
      = (base.map Prod.fst).toFinset ∪ (overlay.map Prod.fst).toFinset := by
  induction overlay generalizing base with
  | nil => simp [dict_union]
  | cons p o ih =>
    have hstep : dict_union base (p :: o) = dict_union (dict_insert base p.1 p.2) o := rfl
    rw [hstep, ih, keys_toFinset_dict_insert]
    apply Finset.ext
    intro x
    simp
    try tauto

/-- C6: the resumption merge — for session states satisfying the invariant
that every answer key is an answered label (and the in-memory answers dict
has unique keys, as Python dicts do), the merged `answered_questions` is
exactly the union of both answered sets, the merged answers resolve each
label to the in-memory (newest) write when present and to the stored value
otherwise, an in-progress `current_question_id` always takes precedence,
and no answered label from either side is lost. -/
theorem C6_resumption_merge (initial existing : FlowState) (user_message : String)
    (hki : ∀ k ∈ initial.answers.map Prod.fst, k ∈ initial.answered_questions)
    (hke : ∀ k ∈ existing.answers.map Prod.fst, k ∈ existing.answered_questions)
    (hnd : (initial.answers.map Prod.fst).Nodup) :
    (merge_memory_state initial existing user_message).answered_questions
        = initial.answered_questions ∪ existing.answered_questions
    ∧ (∀ k, dlookup (merge_memory_state initial existing user_message).answers k
        = match dlookup initial.answers k with
          | some v => some v
          | none => dlookup existing.answers k)
    ∧ (∀ q, initial.current_question_id = some q →
        (merge_memory_state initial existing user_message).current_question_id = some q)
    ∧ initial.answered_questions ∪ existing.answered_questions
        ⊆ (merge_memory_state initial existing user_message).answered_questions := by
  have hki' : ∀ x, x ∈ (initial.answers.map Prod.fst).toFinset →
      x ∈ initial.answered_questions :=
    fun x hx => hki x (List.mem_toFinset.mp hx)
  have hke' : ∀ x, x ∈ (existing.answers.map Prod.fst).toFinset →
      x ∈ existing.answered_questions :=
    fun x hx => hke x (List.mem_toFinset.mp hx)
  have hansEq : (merge_memory_state initial existing user_message).answered_questions
      = initial.answered_questions ∪ existing.answered_questions := by
    simp only [merge_memory_state]
    by_cases hans : existing.answers.isEmpty
    · rw [if_pos hans]
      simp only []
      by_cases hEa : existing.answered_questions = ∅
      · rw [if_pos hEa, hEa, Finset.union_empty]
      · rw [if_neg hEa]
    · rw [if_neg hans]
      simp only [keys_toFinset_dict_union]
      by_cases hEa : existing.answered_questions = ∅
      · rw [if_pos hEa, hEa, Finset.union_empty]
        apply Finset.ext
        intro x
        simp only [Finset.mem_union]
        constructor
        · rintro (h | h | h)
          · exact h
          · have := hke' x h
            rw [hEa] at this
            exact absurd this (Finset.not_mem_empty x)
          · exact hki' x h
        · intro h
          exact Or.inl h
      · rw [if_neg hEa]
        apply Finset.ext
        intro x
        simp only [Finset.mem_union]
        constructor
        · rintro ((h | h) | h | h)
          · exact Or.inl h
          · exact Or.inr h
          · exact Or.inr (hke' x h)
          · exact Or.inl (hki' x h)
        · rintro (h | h)
          · exact Or.inl (Or.inl h)
          · exact Or.inl (Or.inr h)
  refine ⟨hansEq, ?_, ?_, by rw [hansEq]⟩
  · intro k
    simp only [merge_memory_state]
    by_cases hans : existing.answers.isEmpty
    · rw [if_pos hans]
      simp only []
      rw [List.isEmpty_iff.mp hans]
      cases h0 : dlookup initial.answers k <;> simp [h0, dlookup]
    · rw [if_neg hans]
      simp only []
      exact dlookup_dict_union existing.answers initial.answers k hnd
  · intro q hq
    simp only [merge_memory_state]
    rw [hq]

/-- Witness for C6 at the concrete states `mem_state` (in-memory, `AA_2`
just answered) and `stored_state` (stale store copy with only `AA_1`). -/
theorem C6_witness :
    (merge_memory_state mem_state stored_state "two days").answered_questions
        = mem_state.answered_questions ∪ stored_state.answered_questions
    ∧ (∀ k, dlookup (merge_memory_state mem_state stored_state "two days").answers k
        = match dlookup mem_state.answers k with
          | some v => some v
          | none => dlookup stored_state.answers k)
    ∧ (∀ q, mem_state.current_question_id = some q →
        (merge_memory_state mem_state stored_state "two days").current_question_id = some q)
    ∧ mem_state.answered_questions ∪ stored_state.answered_questions
        ⊆ (merge_memory_state mem_state stored_state "two days").answered_questions :=
  C6_resumption_merge mem_state stored_state "two days"
    (by decide) (by decide) (by decide)

/-- C7 (code evaluated at the failing input): loading the two-label
dependency-cycle catalog succeeds — `__init__` performs no cycle check, the
cyclic dependencies are stored as-is, and both questions resolve. The
spec's required `CatalogError` at load never happens. -/
theorem C7_cycle_load_succeeds :
    load_engine (some cycle_doc) = Except.ok (init_catalog cycle_doc)
    ∧ dget (init_catalog cycle_doc).dependencies "X" [] = ["Y"]
    ∧ dget (init_catalog cycle_doc).dependencies "Y" [] = ["X"]
    ∧ (flatten_questions cycle_doc).map Prod.fst = ["X", "Y"] := by
  refine ⟨rfl, ?_, ?_, ?_⟩ <;> decide

/-- C8 (code evaluated at the failing input): a parsed document from which
zero questions resolve still constructs the engine — only the missing-file
case raises. The spec's "fails fast if no questions resolve" does not hold
for a parsed-but-empty document. -/
theorem C8_empty_doc_load_succeeds :
    flatten_questions empty_doc = []
    ∧ load_engine (some empty_doc) = Except.ok (init_catalog empty_doc)
    ∧ (init_catalog empty_doc).questions = []
    ∧ load_engine none
        = Except.error "FileNotFoundError: Questions file not found" := by
  refine ⟨by decide, rfl, by decide, rfl⟩

/-- Membership after `dict_insert`: an old entry or the inserted pair. -/
theorem mem_dict_insert {α : Type} (m : List (String × α)) (k : String) (v : α)
    (p : String × α) (hp : p ∈ dict_insert m k v) : p ∈ m ∨ p = (k, v) := by
  unfold dict_insert at hp
  by_cases hc : m.any (fun q => q.1 == k)
  · rw [if_pos hc] at hp
    obtain ⟨q, hq, hqe⟩ := List.mem_map.mp hp
    by_cases hqk : q.1 = k
    · rw [if_pos hqk] at hqe
      exact Or.inr hqe.symm
    · rw [if_neg hqk] at hqe
      exact Or.inl (hqe ▸ hq)
  · rw [if_neg hc] at hp
    rcases List.mem_append.mp hp with h | h
    · exact Or.inl h
    · exact Or.inr (List.mem_singleton.mp h)

/-- A property preserved by every fold step holds for every member of the
fold's result. -/
theorem foldl_mem_invariant {α β : Type} (P : α → Prop) (Q : β → Prop)
    (step : List α → β → List α)
    (hstep : ∀ acc x, Q x → (∀ q ∈ acc, P q) → ∀ p ∈ step acc x, P p) :
    ∀ (l : List β) (acc : List α), (∀ x ∈ l, Q x) → (∀ q ∈ acc, P q) →
      ∀ p ∈ l.foldl step acc, P p := by
  intro l
  induction l with
  | nil =>
    intro acc _ hacc p hp
    exact hacc p hp
  | cons x rest ih =>
    intro acc hQ hacc p hp
    exact ih (step acc x) (fun y hy => hQ y (List.mem_cons_of_mem _ hy))
      (hstep acc x (hQ x (List.mem_cons_self _ _)) hacc) p hp

/-- `dropWhile` is idempotent. -/
theorem dropWhile_dropWhile {α : Type} (p : α → Bool) (l : List α) :
    (l.dropWhile p).dropWhile p = l.dropWhile p := by
  induction l with
  | nil => rfl
  | cons a t ih =>
    by_cases h : p a
    · simp [List.dropWhile_cons, h, ih]
    · simp [List.dropWhile_cons, h]

/-- The first element surviving `dropWhile` fails the predicate. -/
theorem dropWhile_first_false {α : Type} (p : α → Bool) :
    ∀ (l : List α) (a : α) (t : List α), l.dropWhile p = a :: t → p a = false := by
  intro l
  induction l with
  | nil =>
    intro a t h
    simp at h
  | cons b r ih =>
    intro a t h
    by_cases hb : p b
    · rw [List.dropWhile_cons, if_pos hb] at h
      exact ih a t h
    · rw [List.dropWhile_cons, if_neg hb] at h
      obtain ⟨rfl, -⟩ := List.cons_eq_cons.mp h
      exact Bool.eq_false_iff.mpr hb

/-- A stripped list has no leading whitespace left. -/
theorem dropWhile_strip_list (l : List Char) :
    (strip_list l).dropWhile Char.isWhitespace = strip_list l := by
  have hsuffix : (l.dropWhile Char.isWhitespace).reverse.dropWhile Char.isWhitespace
      <:+ (l.dropWhile Char.isWhitespace).reverse := List.dropWhile_suffix _
  have hpre : strip_list l <+: l.dropWhile Char.isWhitespace := by
    unfold strip_list
    rw [← List.reverse_suffix]
    simpa using hsuffix
  rcases hB : strip_list l with _ | ⟨b, t⟩
  · rfl
  · rw [hB] at hpre
    obtain ⟨t2, ht2⟩ := hpre
    have hb : Char.isWhitespace b = false := by
      refine dropWhile_first_false Char.isWhitespace l b (t ++ t2) ?_
      rw [← ht2]
      rfl
    rw [List.dropWhile_cons, if_neg (by simp [hb])]

/-- Stripping is idempotent over character lists. -/
theorem strip_list_idem (l : List Char) : strip_list (strip_list l) = strip_list l := by
  have hrev : (strip_list l).reverse
      = (l.dropWhile Char.isWhitespace).reverse.dropWhile Char.isWhitespace := by
    simp [strip_list]
  calc strip_list (strip_list l)
      = (((strip_list l).dropWhile Char.isWhitespace).reverse.dropWhile
          Char.isWhitespace).reverse := rfl
    _ = ((strip_list l).reverse.dropWhile Char.isWhitespace).reverse := by
        rw [dropWhile_strip_list]
    _ = (((l.dropWhile Char.isWhitespace).reverse.dropWhile Char.isWhitespace).dropWhile
          Char.isWhitespace).reverse := by rw [hrev]
    _ = ((l.dropWhile Char.isWhitespace).reverse.dropWhile Char.isWhitespace).reverse := by
        rw [dropWhile_dropWhile]
    _ = strip_list l := rfl

/-- Python `strip` is idempotent. -/
theorem py_strip_idem (s : String) : py_strip (py_strip s) = py_strip s :=
  congrArg String.mk (strip_list_idem s.toList)

/-- The placeholder test is insensitive to pre-stripping (it strips its
argument itself). -/
theorem is_placeholder_strip (a : String) : is_placeholder (py_strip a) = is_placeholder a := by
  unfold is_placeholder
  rw [py_strip_idem]

/-- Every entry surviving the `save_user_responses` filter has a
non-blank answer, fails the placeholder test, and is the stripped form of
an input entry that is not a label-looking short question (under 20
characters with an underscore or fully alphanumeric) — note the filter
does NOT force the 20-character threshold on its own. -/
theorem valid_responses_mem (rs : List (String × String)) (p : String × String)
    (hp : p ∈ valid_responses rs) :
    py_strip p.2 ≠ "" ∧ is_placeholder p.2 = false
    ∧ ∃ q0 ∈ rs, p.1 = py_strip q0.1
        ∧ ¬(q0.1.length < 20 ∧ (q0.1.toList.contains '_' = true ∨ py_isalnum q0.1 = true)) := by
  unfold valid_responses at hp
  refine foldl_mem_invariant
    (fun p => py_strip p.2 ≠ "" ∧ is_placeholder p.2 = false
      ∧ ∃ q0 ∈ rs, p.1 = py_strip q0.1
          ∧ ¬(q0.1.length < 20 ∧ (q0.1.toList.contains '_' = true ∨ py_isalnum q0.1 = true)))
    (fun x => x ∈ rs) valid_responses_step ?_ rs [] (fun x hx => hx) (by simp) p hp
  intro acc x hQ hacc q hq
  unfold valid_responses_step at hq
  by_cases h1 : x.1 = ""
  · rw [if_pos h1] at hq
    exact hacc q hq
  · rw [if_neg h1] at hq
    by_cases h2 : x.1.length < 20 ∧ (x.1.toList.contains '_' = true ∨ py_isalnum x.1 = true)
    · rw [if_pos h2] at hq
      exact hacc q hq
    · rw [if_neg h2] at hq
      by_cases h3 : py_strip x.2 = ""
      · rw [if_pos h3] at hq
        exact hacc q hq
      · rw [if_neg h3] at hq
        by_cases h4 : is_placeholder x.2
        · rw [if_pos h4] at hq
          exact hacc q hq
        · rw [if_neg h4] at hq
          rcases mem_dict_insert acc _ _ q hq with hmem | rfl
          · exact hacc q hmem
          · refine ⟨?_, ?_, x, hQ, rfl, h2⟩
            · rw [py_strip_idem]
              exact h3
            · rw [is_placeholder_strip]
              exact Bool.eq_false_iff.mpr h4

/-- Every record built by the export builder carries a resolved question
text of at least 20 characters. -/
theorem build_answers_length (current_qa_pair : Option QAPair)
    (session_answers question_text_map : List (String × String))
    (engine_questions : List (String × QuestionDef)) (p : String × String)
    (hp : p ∈ build_answers_by_question current_qa_pair session_answers question_text_map
        engine_questions) :
    20 ≤ p.1.length := by
  have hd1 : ∀ q ∈ build_step1 current_qa_pair, 20 ≤ q.1.length := by
    intro q hq
    unfold build_step1 at hq
    rcases current_qa_pair with _ | pair
    · simp at hq
    · simp only [] at hq
      by_cases hg : py_strip pair.question ≠ "" ∧ py_strip pair.answer ≠ ""
          ∧ 20 ≤ (py_strip pair.question).length
      · rw [if_pos hg] at hq
        rcases mem_dict_insert [] _ _ q hq with hmem | rfl
        · simp at hmem
        · exact hg.2.2
      · rw [if_neg hg] at hq
        simp at hq
  unfold build_answers_by_question at hp
  by_cases hse : session_answers.isEmpty
  · rw [if_pos hse] at hp
    exact hd1 p hp
  · rw [if_neg hse] at hp
    refine foldl_mem_invariant (fun q => 20 ≤ q.1.length) (fun _ => True)
      (build_step2 question_text_map engine_questions) ?_ session_answers
      (build_step1 current_qa_pair) (fun _ _ => trivial) hd1 p hp
    intro acc x _ hacc q hq
    unfold build_step2 at hq
    by_cases h1 : py_strip x.2 = ""
    · rw [if_pos h1] at hq
      exact hacc q hq
    · rw [if_neg h1] at hq
      rcases hqt : resolve_question_text question_text_map engine_questions x.1 with _ | qt <;>
        rw [hqt] at hq <;> simp only [] at hq
      · exact hacc q hq
      · by_cases h2 : 20 ≤ qt.length
        · rw [if_pos h2] at hq
          by_cases h3 : (acc.map Prod.fst).contains qt
          · rw [if_pos h3] at hq
            exact hacc q hq
          · rw [if_neg h3] at hq
            rcases mem_dict_insert acc _ _ q hq with hmem | rfl
            · exact hacc q hmem
            · exact h2
        · rw [if_neg h2] at hq
          exact hacc q hq

/-- `save_user_responses` succeeds whenever the store is reachable,
whatever the filter removes. -/
theorem save_user_responses_ok (existing_results rs : List (String × String)) :
    (save_user_responses true existing_results rs).1 = true := by
  unfold save_user_responses
  rw [if_neg (by simp)]
  by_cases h1 : rs.isEmpty
  · rw [if_pos h1]
  · rw [if_neg h1]
    by_cases h2 : (valid_responses rs).isEmpty
    · rw [if_pos h2]
    · rw [if_neg h2]

/-- C9 counterexample: the code saves `temp_qa_storage`, which also holds
the raw captured Q/A pair of lines 341-369 whose question text is never
length-checked. With a pending question whose `current_question_text` is
the 9-character, non-label-like "Age, sir?", the capture stores it, the
builder skips it (so the builder contributes a second, valid record and
the save fires), and the store's filter passes it — a record whose
resolved question text is shorter than the 20-character threshold is
persisted, refuting the claim as stated. -/
theorem C9_counterexample :
    ("Age, sir?", "34 years old")
      ∈ (save_user_responses true []
          (temp_qa_after []
            (capture_qa_pair (some "AA_1") "34 years old"
              [("AA_1", "Age, sir?")] c3cat.questions)
            (build_answers_by_question
              (capture_qa_pair (some "AA_1") "34 years old"
                [("AA_1", "Age, sir?")] c3cat.questions)
              [("AA_1", "34 years old"), ("AA_2", "about two days now")]
              [("AA_1", "Age, sir?")] c3cat.questions))).2
    ∧ ("Age, sir?").length < 20
    ∧ (build_answers_by_question
        (capture_qa_pair (some "AA_1") "34 years old"
          [("AA_1", "Age, sir?")] c3cat.questions)
        [("AA_1", "34 years old"), ("AA_2", "about two days now")]
        [("AA_1", "Age, sir?")] c3cat.questions).isEmpty = false := by
  refine ⟨by decide, by decide, by decide⟩

/-- C9 (amended): over the saved `temp_qa_storage` content (the raw
captured pair merged with the builder's dict): the save call always
succeeds; no persisted record has a blank/whitespace-only answer or a
placeholder-matching answer; every persisted record is the stripped form
of a stored entry that is not a label-looking short question; and the
20-character threshold holds for the records the BUILDER contributes — but
not for the raw captured pair, so a short non-label-like question text can
be persisted (the counterexample). -/
theorem C9_amended_export_filtering (temp0 : List (String × String))
    (previous_current_q : Option String) (message : String)
    (question_text_map : List (String × String))
    (engine_questions : List (String × QuestionDef))
    (session_answers existing_results : List (String × String)) :
    (save_user_responses true existing_results
        (temp_qa_after temp0
          (capture_qa_pair previous_current_q message question_text_map engine_questions)
          (build_answers_by_question
            (capture_qa_pair previous_current_q message question_text_map engine_questions)
            session_answers question_text_map engine_questions))).1 = true
    ∧ (∀ p ∈ valid_responses (temp_qa_after temp0
          (capture_qa_pair previous_current_q message question_text_map engine_questions)
          (build_answers_by_question
            (capture_qa_pair previous_current_q message question_text_map engine_questions)
            session_answers question_text_map engine_questions)),
        py_strip p.2 ≠ "" ∧ is_placeholder p.2 = false
          ∧ ∃ q0 ∈ temp_qa_after temp0
              (capture_qa_pair previous_current_q message question_text_map engine_questions)
              (build_answers_by_question
                (capture_qa_pair previous_current_q message question_text_map engine_questions)
                session_answers question_text_map engine_questions),
              p.1 = py_strip q0.1
              ∧ ¬(q0.1.length < 20
                  ∧ (q0.1.toList.contains '_' = true ∨ py_isalnum q0.1 = true)))
    ∧ (∀ p ∈ build_answers_by_question
          (capture_qa_pair previous_current_q message question_text_map engine_questions)
          session_answers question_text_map engine_questions, 20 ≤ p.1.length) := by
  refine ⟨save_user_responses_ok _ _, ?_,
    fun p hp => build_answers_length _ session_answers question_text_map
      engine_questions p hp⟩
  intro p hp
  exact valid_responses_mem _ p hp

/-- Witness for the amended C9 at the counterexample's concrete inputs. -/
theorem C9_witness :
    (save_user_responses true []
        (temp_qa_after []
          (capture_qa_pair (some "AA_1") "34 years old"
            [("AA_1", "Age, sir?")] c3cat.questions)
          (build_answers_by_question
            (capture_qa_pair (some "AA_1") "34 years old"
              [("AA_1", "Age, sir?")] c3cat.questions)
            [("AA_1", "34 years old"), ("AA_2", "about two days now")]
            [("AA_1", "Age, sir?")] c3cat.questions))).1 = true
    ∧ (∀ p ∈ valid_responses (temp_qa_after []
          (capture_qa_pair (some "AA_1") "34 years old"
            [("AA_1", "Age, sir?")] c3cat.questions)
          (build_answers_by_question
            (capture_qa_pair (some "AA_1") "34 years old"
              [("AA_1", "Age, sir?")] c3cat.questions)
            [("AA_1", "34 years old"), ("AA_2", "about two days now")]
            [("AA_1", "Age, sir?")] c3cat.questions)),
        py_strip p.2 ≠ "" ∧ is_placeholder p.2 = false
          ∧ ∃ q0 ∈ temp_qa_after []
              (capture_qa_pair (some "AA_1") "34 years old"
                [("AA_1", "Age, sir?")] c3cat.questions)
              (build_answers_by_question
                (capture_qa_pair (some "AA_1") "34 years old"
                  [("AA_1", "Age, sir?")] c3cat.questions)
                [("AA_1", "34 years old"), ("AA_2", "about two days now")]
                [("AA_1", "Age, sir?")] c3cat.questions),
              p.1 = py_strip q0.1
              ∧ ¬(q0.1.length < 20
                  ∧ (q0.1.toList.contains '_' = true ∨ py_isalnum q0.1 = true)))
    ∧ (∀ p ∈ build_answers_by_question
          (capture_qa_pair (some "AA_1") "34 years old"
            [("AA_1", "Age, sir?")] c3cat.questions)
          [("AA_1", "34 years old"), ("AA_2", "about two days now")]
          [("AA_1", "Age, sir?")] c3cat.questions, 20 ≤ p.1.length) :=
  C9_amended_export_filtering []
    (some "AA_1") "34 years old" [("AA_1", "Age, sir?")] c3cat.questions
    [("AA_1", "34 years old"), ("AA_2", "about two days now")] []
